import Mathlib

set_option maxHeartbeats 1000000

/-!
Formal model of the 4field backlog acquisition/ingestion system
(`src/process_data_4field.py` and `src/scraper_4field_async.py`).

The pandas data-frame operations used by `ExcelFileHendler._process_dataframe`
are embedded cell-by-cell: a data frame is an ordered list of named, typed
columns, a cell is either the canonical missing marker or an integer,
integral float, or string value.  Pandas datetime parsing
(`pd.to_datetime(..., errors='coerce')` with no explicit format) is modelled
with format inference from the first non-null string element, as pandas does.
-/

namespace Backlog

/-! ## Decimal rendering and parsing

`renderNatChars`/`parseNatChars` model the decimal printing and parsing used
by pandas when a nullable-integer (`Int64`) column is cast to `str`, and when
an object column of decimal strings is cast to `Int64`.  They are structural
(fuel-based) definitions so concrete runs reduce inside the kernel. -/

def digitChar : Nat → Char
  | 0 => '0' | 1 => '1' | 2 => '2' | 3 => '3' | 4 => '4'
  | 5 => '5' | 6 => '6' | 7 => '7' | 8 => '8' | _ => '9'

def digitVal (c : Char) : Nat := c.toNat - 48

def renderNatAux : Nat → Nat → List Char
  | 0, _ => []
  | fuel + 1, n =>
    if n < 10 then [digitChar n]
    else renderNatAux fuel (n / 10) ++ [digitChar (n % 10)]

def renderNatChars (n : Nat) : List Char := renderNatAux (n + 1) n

def parseStep (acc : Option Nat) (c : Char) : Option Nat :=
  match acc with
  | none => none
  | some a => if c.isDigit then some (a * 10 + digitVal c) else none

def parseNatChars (l : List Char) : Option Nat :=
  match l with
  | [] => none
  | _ :: _ => List.foldl parseStep (some 0) l

def renderIntChars (n : Int) : List Char :=
  if n < 0 then '-' :: renderNatChars n.natAbs else renderNatChars n.toNat

def renderIntStr (n : Int) : String := ⟨renderIntChars n⟩

def parseIntChars (l : List Char) : Option Int :=
  match l with
  | [] => none
  | c :: rest =>
    if c = '-' then (parseNatChars rest).map (fun m => -(m : Int))
    else (parseNatChars l).map (fun m => (m : Int))

def parseNatStr (s : String) : Option Nat := parseNatChars s.data

def parseIntStr (s : String) : Option Int := parseIntChars s.data

theorem digitChar_isDigit {d : Nat} (h : d < 10) : (digitChar d).isDigit = true := by
  interval_cases d <;> decide

theorem digitVal_digitChar {d : Nat} (h : d < 10) : digitVal (digitChar d) = d := by
  interval_cases d <;> decide

theorem renderNatAux_ne_nil : ∀ fuel n, n < fuel → renderNatAux fuel n ≠ [] := by
  intro fuel
  induction fuel with
  | zero => intro n h; omega
  | succ fuel _ =>
    intro n _
    unfold renderNatAux
    split
    · simp
    · simp

theorem renderNatAux_digits :
    ∀ fuel n, n < fuel → ∀ c ∈ renderNatAux fuel n, c.isDigit = true := by
  intro fuel
  induction fuel with
  | zero => intro n h; omega
  | succ fuel ih =>
    intro n hn c hc
    unfold renderNatAux at hc
    by_cases h10 : n < 10
    · rw [if_pos h10] at hc
      simp at hc
      exact hc ▸ digitChar_isDigit h10
    · rw [if_neg h10] at hc
      rcases List.mem_append.mp hc with h | h
      · have hdiv : n / 10 < n := Nat.div_lt_self (by omega) (by omega)
        exact ih (n / 10) (by omega) c h
      · simp at h
        exact h ▸ digitChar_isDigit (Nat.mod_lt _ (by omega))

theorem foldl_parseStep_render :
    ∀ fuel n a, n < fuel →
      List.foldl parseStep (some a) (renderNatAux fuel n)
        = some (a * 10 ^ (renderNatAux fuel n).length + n) := by
  intro fuel
  induction fuel with
  | zero => intro n a h; omega
  | succ fuel ih =>
    intro n a hn
    unfold renderNatAux
    by_cases h10 : n < 10
    · rw [if_pos h10]
      simp [parseStep, digitChar_isDigit h10, digitVal_digitChar h10]
    · rw [if_neg h10]
      have hdiv : n / 10 < n := Nat.div_lt_self (by omega) (by omega)
      rw [List.foldl_append, ih (n / 10) a (by omega)]
      have hm : n % 10 < 10 := Nat.mod_lt _ (by omega)
      simp only [List.foldl_cons, List.foldl_nil, parseStep, digitChar_isDigit hm,
        if_true, digitVal_digitChar hm, List.length_append, List.length_singleton]
      congr 1
      set L := (renderNatAux fuel (n / 10)).length with hL
      calc (a * 10 ^ L + n / 10) * 10 + n % 10
          = a * (10 ^ L * 10) + (10 * (n / 10) + n % 10) := by ring
        _ = a * 10 ^ (L + 1) + n := by rw [Nat.div_add_mod, pow_succ]

theorem renderNatChars_ne_nil (n : Nat) : renderNatChars n ≠ [] :=
  renderNatAux_ne_nil (n + 1) n (Nat.lt_succ_self n)

theorem renderNatChars_digits (n : Nat) : ∀ c ∈ renderNatChars n, c.isDigit = true :=
  renderNatAux_digits (n + 1) n (Nat.lt_succ_self n)

theorem parseNatChars_of_ne_nil {l : List Char} (h : l ≠ []) :
    parseNatChars l = List.foldl parseStep (some 0) l := by
  cases l with
  | nil => exact absurd rfl h
  | cons c rest => rfl

theorem parseNat_render (n : Nat) : parseNatChars (renderNatChars n) = some n := by
  rw [parseNatChars_of_ne_nil (renderNatChars_ne_nil n)]
  rw [renderNatChars, foldl_parseStep_render (n + 1) n 0 (Nat.lt_succ_self n)]
  simp

theorem isDigit_ne_dash {c : Char} (h : c.isDigit = true) : c ≠ '-' := by
  intro he
  rw [he] at h
  exact absurd h (by decide)

theorem parseInt_render (n : Int) : parseIntChars (renderIntChars n) = some n := by
  by_cases h : n < 0
  · rw [renderIntChars, if_pos h]
    have hstep : parseIntChars ('-' :: renderNatChars n.natAbs)
        = (parseNatChars (renderNatChars n.natAbs)).map (fun m => -(m : Int)) := by
      simp [parseIntChars]
    rw [hstep, parseNat_render]
    have habs : ((n.natAbs : Nat) : Int) = -n := by omega
    simp [habs]
  · simp only [renderIntChars, if_neg h]
    cases hl : renderNatChars n.toNat with
    | nil => exact absurd hl (renderNatChars_ne_nil n.toNat)
    | cons c rest =>
      have hd : c.isDigit = true := by
        apply renderNatChars_digits n.toNat
        rw [hl]; exact List.mem_cons_self _ _
      simp only [parseIntChars, if_neg (isDigit_ne_dash hd)]
      rw [← hl, parseNat_render]
      simp
      omega

theorem parseIntStr_render (n : Int) : parseIntStr (renderIntStr n) = some n :=
  parseInt_render n

theorem renderIntStr_eq_zero_iff (n : Int) : renderIntStr n = "0" ↔ n = 0 := by
  constructor
  · intro h
    have h1 : parseIntStr (renderIntStr n) = some n := parseIntStr_render n
    rw [h] at h1
    have h2 : parseIntStr "0" = some 0 := by decide
    rw [h2] at h1
    injection h1 with h1
    omega
  · intro h
    subst h
    decide

theorem renderIntChars_digits {n : Int} (h : 0 ≤ n) :
    ∀ c ∈ renderIntChars n, c.isDigit = true := by
  intro c hc
  rw [renderIntChars, if_neg (by omega)] at hc
  exact renderNatChars_digits n.toNat c hc

theorem renderIntChars_ne_nil (n : Int) : renderIntChars n ≠ [] := by
  rw [renderIntChars]
  split
  · simp
  · exact renderNatChars_ne_nil n.toNat

/-! ## Splitting character lists

`splitOnChar` models the tokenisation done when parsing a datetime string
into its date, time and numeric components. -/

def splitOnChar (sep : Char) : List Char → List (List Char)
  | [] => [[]]
  | c :: rest =>
    match splitOnChar sep rest with
    | [] => if c = sep then [[], []] else [[c]]
    | g :: gs => if c = sep then [] :: g :: gs else (c :: g) :: gs

theorem splitOnChar_cons (sep c : Char) (rest : List Char) :
    splitOnChar sep (c :: rest) =
      match splitOnChar sep rest with
      | [] => if c = sep then [[], []] else [[c]]
      | g :: gs => if c = sep then [] :: g :: gs else (c :: g) :: gs := rfl

theorem splitOnChar_ne_nil (sep : Char) : ∀ l, splitOnChar sep l ≠ [] := by
  intro l
  cases l with
  | nil => simp [splitOnChar]
  | cons c rest =>
    unfold splitOnChar
    split <;> split <;> simp

theorem splitOnChar_no_sep {sep : Char} :
    ∀ {l : List Char}, (∀ c ∈ l, c ≠ sep) → splitOnChar sep l = [l] := by
  intro l
  induction l with
  | nil => intro _; rfl
  | cons c rest ih =>
    intro h
    have hrec : splitOnChar sep rest = [rest] := ih (fun x hx => h x (List.mem_cons_of_mem _ hx))
    rw [splitOnChar_cons, hrec]
    simp [h c (List.mem_cons_self _ _)]

theorem splitOnChar_append {sep : Char} :
    ∀ {a b : List Char}, (∀ c ∈ a, c ≠ sep) →
      splitOnChar sep (a ++ sep :: b) = a :: splitOnChar sep b := by
  intro a
  induction a with
  | nil =>
    intro b _
    show splitOnChar sep (sep :: b) = [] :: splitOnChar sep b
    rw [splitOnChar_cons]
    cases hsb : splitOnChar sep b with
    | nil => exact absurd hsb (splitOnChar_ne_nil sep b)
    | cons g gs => simp
  | cons c rest ih =>
    intro b h
    have hrec := ih (b := b) (fun x hx => h x (List.mem_cons_of_mem _ hx))
    show splitOnChar sep (c :: (rest ++ sep :: b)) = (c :: rest) :: splitOnChar sep b
    rw [splitOnChar_cons, hrec]
    simp [h c (List.mem_cons_self _ _)]

/-! ## Datetime values

`pd.to_datetime(..., errors='coerce')` with no explicit format is modelled by
format inference from the first non-null string element (pandas 2.x
behaviour): an unambiguous slash date is parsed day-first only when its first
component cannot be a month, exactly like pandas' `guess_datetime_format`
with the default `dayfirst=False`.  Calendar validity is approximated by
field ranges (day ≤ 31). -/

structure DT where
  y : Nat
  mo : Nat
  d : Nat
  hh : Nat
  mi : Nat
  ss : Nat
deriving DecidableEq, Repr

def DT.valid (t : DT) : Prop :=
  1 ≤ t.mo ∧ t.mo ≤ 12 ∧ 1 ≤ t.d ∧ t.d ≤ 31 ∧ t.hh ≤ 23 ∧ t.mi ≤ 59 ∧ t.ss ≤ 59

instance (t : DT) : Decidable t.valid := by
  unfold DT.valid
  infer_instance

def parseTimeChars (l : List Char) : Option (Nat × Nat × Nat) :=
  match splitOnChar ':' l with
  | [h, m, s] =>
    match parseNatChars h, parseNatChars m, parseNatChars s with
    | some hh, some mm, some ss =>
      if hh ≤ 23 ∧ mm ≤ 59 ∧ ss ≤ 59 then some (hh, mm, ss) else none
    | _, _, _ => none
  | _ => none

def parseDateSlash (dayFirst : Bool) (l : List Char) : Option (Nat × Nat × Nat) :=
  match splitOnChar '/' l with
  | [a, b, c] =>
    match parseNatChars a, parseNatChars b, parseNatChars c with
    | some x, some z, some yr =>
      if dayFirst then
        if 1 ≤ z ∧ z ≤ 12 ∧ 1 ≤ x ∧ x ≤ 31 then some (yr, z, x) else none
      else
        if 1 ≤ x ∧ x ≤ 12 ∧ 1 ≤ z ∧ z ≤ 31 then some (yr, x, z) else none
    | _, _, _ => none
  | _ => none

def parseDateIso (l : List Char) : Option (Nat × Nat × Nat) :=
  match splitOnChar '-' l with
  | [a, b, c] =>
    match parseNatChars a, parseNatChars b, parseNatChars c with
    | some yr, some mm, some dd =>
      if 1 ≤ mm ∧ mm ≤ 12 ∧ 1 ≤ dd ∧ dd ≤ 31 then some (yr, mm, dd) else none
    | _, _, _ => none
  | _ => none

def parseDTwith (dateParse : List Char → Option (Nat × Nat × Nat)) (s : String) : Option DT :=
  match splitOnChar ' ' s.data with
  | [dp] => (dateParse dp).map (fun v => ⟨v.1, v.2.1, v.2.2, 0, 0, 0⟩)
  | [dp, tp] =>
    match dateParse dp, parseTimeChars tp with
    | some v, some w => some ⟨v.1, v.2.1, v.2.2, w.1, w.2.1, w.2.2⟩
    | _, _ => none
  | _ => none

inductive Fmt
  | iso
  | mdy
  | dmy
deriving DecidableEq, Repr

def parseFmt : Fmt → String → Option DT
  | .iso => parseDTwith parseDateIso
  | .mdy => parseDTwith (parseDateSlash false)
  | .dmy => parseDTwith (parseDateSlash true)

def guessFmt (s : String) : Option Fmt :=
  if (parseFmt .iso s).isSome then some .iso
  else if (parseFmt .mdy s).isSome then some .mdy
  else if (parseFmt .dmy s).isSome then some .dmy
  else none

def parseFlex (s : String) : Option DT :=
  match parseFmt .iso s with
  | some t => some t
  | none =>
    match parseFmt .mdy s with
    | some t => some t
    | none => parseFmt .dmy s

def pad2Chars (n : Nat) : List Char :=
  if n < 10 then '0' :: renderNatChars n else renderNatChars n

def pad4Chars (n : Nat) : List Char :=
  if n < 10 then '0' :: '0' :: '0' :: renderNatChars n
  else if n < 100 then '0' :: '0' :: renderNatChars n
  else if n < 1000 then '0' :: renderNatChars n
  else renderNatChars n

def isoDateChars (t : DT) : List Char :=
  pad4Chars t.y ++ ('-' :: (pad2Chars t.mo ++ ('-' :: pad2Chars t.d)))

def isoTimeChars (t : DT) : List Char :=
  pad2Chars t.hh ++ (':' :: (pad2Chars t.mi ++ (':' :: pad2Chars t.ss)))

def isoStringDT (t : DT) : String := ⟨isoDateChars t ++ (' ' :: isoTimeChars t)⟩

theorem foldl_parseStep_zero (l : List Char) :
    List.foldl parseStep (some 0) ('0' :: l) = List.foldl parseStep (some 0) l := by
  rw [List.foldl_cons]
  have h0 : parseStep (some 0) '0' = some 0 := by decide
  rw [h0]

theorem foldl_parseStep_renderNat (n : Nat) :
    List.foldl parseStep (some 0) (renderNatChars n) = some n := by
  have h := parseNat_render n
  rwa [parseNatChars_of_ne_nil (renderNatChars_ne_nil n)] at h

theorem parseNat_pad2 (n : Nat) : parseNatChars (pad2Chars n) = some n := by
  rw [pad2Chars]
  by_cases h : n < 10
  · rw [if_pos h, parseNatChars_of_ne_nil (by simp), foldl_parseStep_zero,
      foldl_parseStep_renderNat]
  · rw [if_neg h]
    exact parseNat_render n

theorem parseNat_pad4 (n : Nat) : parseNatChars (pad4Chars n) = some n := by
  rw [pad4Chars]
  by_cases h1 : n < 10
  · rw [if_pos h1, parseNatChars_of_ne_nil (by simp), foldl_parseStep_zero,
      foldl_parseStep_zero, foldl_parseStep_zero, foldl_parseStep_renderNat]
  · rw [if_neg h1]
    by_cases h2 : n < 100
    · rw [if_pos h2, parseNatChars_of_ne_nil (by simp), foldl_parseStep_zero,
        foldl_parseStep_zero, foldl_parseStep_renderNat]
    · rw [if_neg h2]
      by_cases h3 : n < 1000
      · rw [if_pos h3, parseNatChars_of_ne_nil (by simp), foldl_parseStep_zero,
          foldl_parseStep_renderNat]
      · rw [if_neg h3]
        exact parseNat_render n

theorem mem_pad2Chars {n : Nat} {c : Char} (hc : c ∈ pad2Chars n) : c.isDigit = true := by
  rw [pad2Chars] at hc
  split at hc
  · rcases List.mem_cons.mp hc with h | h
    · subst h; decide
    · exact renderNatChars_digits n c h
  · exact renderNatChars_digits n c hc

theorem mem_pad4Chars {n : Nat} {c : Char} (hc : c ∈ pad4Chars n) : c.isDigit = true := by
  rw [pad4Chars] at hc
  split at hc
  · simp only [List.mem_cons] at hc
    rcases hc with h | h | h | h
    · subst h; decide
    · subst h; decide
    · subst h; decide
    · exact renderNatChars_digits n c h
  · split at hc
    · simp only [List.mem_cons] at hc
      rcases hc with h | h | h
      · subst h; decide
      · subst h; decide
      · exact renderNatChars_digits n c h
    · split at hc
      · rcases List.mem_cons.mp hc with h | h
        · subst h; decide
        · exact renderNatChars_digits n c h
      · exact renderNatChars_digits n c hc

theorem isDigit_ne_of {c x : Char} (h : c.isDigit = true) (hx : x.isDigit = false) :
    c ≠ x := by
  intro he
  rw [he, hx] at h
  exact Bool.false_ne_true h

theorem digit_ne_dash {c : Char} (h : c.isDigit = true) : c ≠ '-' :=
  isDigit_ne_of h (by decide)

theorem digit_ne_colon {c : Char} (h : c.isDigit = true) : c ≠ ':' :=
  isDigit_ne_of h (by decide)

theorem digit_ne_space {c : Char} (h : c.isDigit = true) : c ≠ ' ' :=
  isDigit_ne_of h (by decide)

theorem digit_ne_slash {c : Char} (h : c.isDigit = true) : c ≠ '/' :=
  isDigit_ne_of h (by decide)

theorem mem_isoDateChars {t : DT} {c : Char} (hc : c ∈ isoDateChars t) :
    c.isDigit = true ∨ c = '-' := by
  rw [isoDateChars] at hc
  rcases List.mem_append.mp hc with h | h
  · exact Or.inl (mem_pad4Chars h)
  · rcases List.mem_cons.mp h with h | h
    · exact Or.inr h
    · rcases List.mem_append.mp h with h | h
      · exact Or.inl (mem_pad2Chars h)
      · rcases List.mem_cons.mp h with h | h
        · exact Or.inr h
        · exact Or.inl (mem_pad2Chars h)

theorem mem_isoTimeChars {t : DT} {c : Char} (hc : c ∈ isoTimeChars t) :
    c.isDigit = true ∨ c = ':' := by
  rw [isoTimeChars] at hc
  rcases List.mem_append.mp hc with h | h
  · exact Or.inl (mem_pad2Chars h)
  · rcases List.mem_cons.mp h with h | h
    · exact Or.inr h
    · rcases List.mem_append.mp h with h | h
      · exact Or.inl (mem_pad2Chars h)
      · rcases List.mem_cons.mp h with h | h
        · exact Or.inr h
        · exact Or.inl (mem_pad2Chars h)

theorem isoDateChars_ne_space {t : DT} : ∀ c ∈ isoDateChars t, c ≠ ' ' := by
  intro c hc
  rcases mem_isoDateChars hc with h | h
  · exact digit_ne_space h
  · subst h; decide

theorem isoTimeChars_ne_space {t : DT} : ∀ c ∈ isoTimeChars t, c ≠ ' ' := by
  intro c hc
  rcases mem_isoTimeChars hc with h | h
  · exact digit_ne_space h
  · subst h; decide

theorem splitSpace_iso (t : DT) :
    splitOnChar ' ' (isoStringDT t).data = [isoDateChars t, isoTimeChars t] := by
  show splitOnChar ' ' (isoDateChars t ++ ' ' :: isoTimeChars t)
      = [isoDateChars t, isoTimeChars t]
  rw [splitOnChar_append isoDateChars_ne_space, splitOnChar_no_sep isoTimeChars_ne_space]

theorem parseDateIso_iso (t : DT) (h : t.valid) :
    parseDateIso (isoDateChars t) = some (t.y, t.mo, t.d) := by
  obtain ⟨h1, h2, h3, h4, _, _, _⟩ := h
  have hsplit : splitOnChar '-' (isoDateChars t)
      = [pad4Chars t.y, pad2Chars t.mo, pad2Chars t.d] := by
    rw [isoDateChars]
    rw [splitOnChar_append (fun c hc => digit_ne_dash (mem_pad4Chars hc))]
    rw [splitOnChar_append (fun c hc => digit_ne_dash (mem_pad2Chars hc))]
    rw [splitOnChar_no_sep (fun c hc => digit_ne_dash (mem_pad2Chars hc))]
  rw [parseDateIso, hsplit]
  simp [parseNat_pad4, parseNat_pad2, h1, h2, h3, h4]

theorem parseTime_iso (t : DT) (h : t.valid) :
    parseTimeChars (isoTimeChars t) = some (t.hh, t.mi, t.ss) := by
  obtain ⟨_, _, _, _, h5, h6, h7⟩ := h
  have hsplit : splitOnChar ':' (isoTimeChars t)
      = [pad2Chars t.hh, pad2Chars t.mi, pad2Chars t.ss] := by
    rw [isoTimeChars]
    rw [splitOnChar_append (fun c hc => digit_ne_colon (mem_pad2Chars hc))]
    rw [splitOnChar_append (fun c hc => digit_ne_colon (mem_pad2Chars hc))]
    rw [splitOnChar_no_sep (fun c hc => digit_ne_colon (mem_pad2Chars hc))]
  rw [parseTimeChars, hsplit]
  simp [parseNat_pad2, h5, h6, h7]

theorem parseFmt_iso_roundtrip (t : DT) (h : t.valid) :
    parseFmt Fmt.iso (isoStringDT t) = some t := by
  show parseDTwith parseDateIso (isoStringDT t) = some t
  unfold parseDTwith
  rw [splitSpace_iso]
  simp [parseDateIso_iso t h, parseTime_iso t h]

theorem guessFmt_iso (t : DT) (h : t.valid) : guessFmt (isoStringDT t) = some Fmt.iso := by
  rw [guessFmt, parseFmt_iso_roundtrip t h]
  simp

/-! ## Cells, columns and data frames

A pandas `DataFrame` is modelled as an ordered list of named, typed columns.
A cell is the canonical missing marker (`NaN`/`None`/`NaT`/`pd.NA` are not
distinguished; the stage-specific stringification of a missing cell is
modelled at each `astype(str)` site), an `int64` value, an integral `float64`
value, or a string.  Non-integral floats do not occur in the columns any
claim touches; integer-literal CSV tokens are the only ones inferred as
numeric. -/

inductive Cell
  | null
  | intv (n : Int)
  | floatv (n : Int)
  | strv (s : String)
deriving DecidableEq, Repr

inductive Dtype
  | int64
  | float64
  | obj
deriving DecidableEq, Repr

structure Column where
  name : String
  dtype : Dtype
  cells : List Cell
deriving DecidableEq, Repr

abbrev DataFrame := List Column

/-- `FileProcessingResult` from `process_data_4field.py` (field `sucess` is
spelled as in the source). -/
structure FileProcessingResult where
  sucess : Bool
  message : String
  dataframe : Option DataFrame
  chunks_processed : Nat
deriving DecidableEq, Repr

/-- Error-propagating map, used to model pandas operations that raise on the
first bad element. -/
def mapE (f : α → Except String β) : List α → Except String (List β)
  | [] => .ok []
  | x :: xs => do
    let y ← f x
    let ys ← mapE f xs
    .ok (y :: ys)

/-! ## Fixed schema constants (`ExcelFileHendler`) -/

/-- `ExcelFileHendler.COLUMN_MAPPING`. -/
def COLUMN_MAPPING : List (String × String) := [
  ("Id 4Field", "id_4field"),
  ("Criação do NTT", "criacao_do_ntt"),
  ("Tempo de Abertura", "tempo_de_abertura"),
  ("Data", "data"),
  ("Hora de criação da atividade (aux)", "hora_de_criacao_da_atividade_aux"),
  ("ID da Atividade", "id_da_atividade"),
  ("Número de Ordem", "numero_de_ordem"),
  ("Evento", "evento"),
  ("Tipo da Atividade", "tipo_da_atividade"),
  ("Estado", "estado"),
  ("Provedor", "provedor"),
  ("Matrícula do Provedor", "matricula_do_provedor"),
  ("Tipo Contrato", "tipo_contrato"),
  ("Regional", "regional"),
  ("Contrato", "contrato"),
  ("Empresa", "empresa"),
  ("UF", "uf"),
  ("Cidade", "cidade"),
  ("Usuário Executor", "usuario_executor"),
  ("ETA", "eta"),
  ("Fim", "fim"),
  ("Título do Alarme", "titulo_do_alarme"),
  ("Tipo da Falha", "tipo_da_falha"),
  ("CM", "cm"),
  ("END_ID", "end_id"),
  ("NE ID", "ne_id"),
  ("Tipo de NE", "tipo_de_ne"),
  ("BSC/RNC", "bsc_rnc"),
  ("Motivo do Pendenciamento", "motivo_do_pendenciamento"),
  ("Operadora", "operadora"),
  ("Nota de Abertura", "nota_de_abertura"),
  ("Prioridade", "prioridade"),
  ("Responsabilidade", "responsabilidade"),
  ("Sub Área", "sub_area"),
  ("Motivo da Suspensão", "motivo_da_suspensao"),
  ("Motivo da Tramitação", "motivo_da_tramitacao"),
  ("Tramitação ou Suspensão", "tramitacao_ou_suspensao"),
  ("Repetido", "repetido"),
  ("Início GMG", "inicio_gmg"),
  ("Término GMG", "termino_gmg"),
  ("Status GMG", "status_gmg"),
  ("Responsável GMG", "responsavel_gmg"),
  ("Descrição GMG", "descricao_gmg"),
  ("Priorização Dispatching", "priorizacao_dispatching"),
  ("Priorização Dispatching Classific.", "priorizacao_dispatching_classific"),
  ("Workzone", "workzone"),
  ("Workzone END_ID", "workzone_end_id"),
  ("Data Primeira Roteirização", "data_primeira_roteirizacao"),
  ("Data Última Roteirização", "data_ultima_roteirizacao"),
  ("Classificação GSBI", "classificacao_gsbi"),
  ("Seguimento de rede equipamento", "seguimento_de_rede_equipamento"),
  ("Função do Equipamento", "funcao_do_equipamento"),
  ("Prédios Industriais", "predios_industriais"),
  ("Regra usuário criador", "regra_usuario_criador"),
  ("Grupo", "grupo"),
  ("ID do Ticket CA", "id_do_ticket_ca"),
  ("Qual foi a causa da falha no elemento?", "qual_foi_a_causa_da_falha_no_elemento"),
  ("Onde está o problema?", "onde_esta_o_problema"),
  ("O que foi feito para resolver?", "o_que_foi_feito_para_resolver"),
  ("Data da Coleta", "data_da_coleta")]

/-- `ExcelFileHendler.PREFIX`. -/
def defaultPfx : String := "backlog"

/-- `ExcelFileHendler.CSV_SIZE_TRESHOLD` (MB). -/
def CSV_SIZE_TRESHOLD : Nat := 10

/-- `ExcelFileHendler.CHUNK_SIZE` (rows per chunk). -/
def CHUNK_SIZE : Nat := 10000

/-- `ExcelFileHendler.AVG_LINE_SIZE_KB`. -/
def AVG_LINE_SIZE_KB : Nat := 1

/-- `ExcelFileHendler.DATE_COLUMNS`. -/
def DATE_COLUMNS : List String := [
  "criacao_do_ntt",
  "hora_de_criacao_da_atividade_aux",
  "eta",
  "fim",
  "inicio_gmg",
  "termino_gmg",
  "data_primeira_roteirizacao",
  "data_ultima_roteirizacao"]

/-- `id_cols` from `_process_dataframe`. -/
def ID_COLUMNS : List String := ["id_4field", "id_da_atividade"]

/-- The free-text column stringified unconditionally at line 184. -/
def PRIOR_COL : String := "priorizacao_dispatching"

/-- The sentinel strings replaced at line 187
(`df.replace` with keys `pd.NA`, `"nan"`, `"None"`, `""`, `"NaT"`; the
`pd.NA` key matches every missing cell, modelled by `Cell.null` mapping to
itself). -/
def SENTINELS : List String := ["nan", "None", "", "NaT"]

/-! ## `_process_dataframe` -/

def lookupAssoc (k : String) : List (String × String) → Option String
  | [] => none
  | p :: ps => if p.1 = k then some p.2 else lookupAssoc k ps

/-- `df.rename(columns=self.COLUMN_MAPPING)` applied to one column name. -/
def renameColName (n : String) : String := (lookupAssoc n COLUMN_MAPPING).getD n

def renameCol (c : Column) : Column := { c with name := renameColName c.name }

def renameDf (df : DataFrame) : DataFrame := df.map renameCol

def containsName (n : String) (df : DataFrame) : Bool := df.any (fun c => c.name = n)

def nRows (df : DataFrame) : Nat :=
  match df with
  | [] => 0
  | c :: _ => c.cells.length

/-- `df.insert(0, "update_time", self.update_time)` when an update time was
supplied; pandas raises `ValueError` if the column already exists. -/
def insertUpdateTime (u : Option String) (df : DataFrame) : Except String DataFrame :=
  match u with
  | none => .ok df
  | some s =>
    if containsName "update_time" df then .error "cannot insert update_time, already exists"
    else .ok (⟨"update_time", Dtype.obj, List.replicate (nRows df) (Cell.strv s)⟩ :: df)

def firstStrCell : List Cell → Option String
  | [] => none
  | Cell.strv s :: _ => some s
  | _ :: rest => firstStrCell rest

/-- `pd.to_datetime(column, errors='coerce')` (line 168): the datetime format
is inferred from the first non-null string element; every element is then
parsed with that format, unparseable values becoming `NaT` (here `none`).
When no format can be inferred each element is parsed individually
(dateutil-style, month-first preference).  Note: the source does *not* pass
`format=self.DATETIME_FORMAT`, so inference — not the declared day-first
format — decides. -/
def parseCellsWith (g : Option Fmt) (cells : List Cell) : List (Option DT) :=
  match g with
  | some f => cells.map (fun c => match c with | .strv s => parseFmt f s | _ => none)
  | none => cells.map (fun c => match c with | .strv s => parseFlex s | _ => none)

def toDatetimeCoerce (cells : List Cell) : List (Option DT) :=
  match firstStrCell cells with
  | none => cells.map (fun _ => none)
  | some s0 => parseCellsWith (guessFmt s0) cells

/-- `strftime('%Y-%m-%d %H:%M:%S')` with `None` for `NaT` (line 171). -/
def dtRender (o : Option DT) : Cell :=
  match o with
  | some t => Cell.strv (isoStringDT t)
  | none => Cell.null

/-- Lines 162-174: for each date column present, parse with
`toDatetimeCoerce` then reformat with `strftime('%Y-%m-%d %H:%M:%S')`,
keeping `None` where the parse coerced (`.where(df[col].notnull(), None)`).
The output column is an object column of ISO strings and nulls. -/
def dateCol (c : Column) : Column :=
  if c.name ∈ DATE_COLUMNS then
    { c with
      dtype := Dtype.obj
      cells := (toDatetimeCoerce c.cells).map dtRender }
  else c

def dateStepsDf (df : DataFrame) : DataFrame := df.map dateCol

/-- `.fillna(0)` on one cell. -/
def fillnaZero (c : Cell) : Cell :=
  match c with
  | .null => .intv 0
  | _ => c

/-- `.astype('Int64')` on one cell: integral values pass through, decimal
strings are parsed, anything else raises. -/
def astypeInt64Cell : Cell → Except String Int
  | .intv n => .ok n
  | .floatv n => .ok n
  | .strv s =>
    match parseIntStr s with
    | some n => .ok n
    | none => .error ("cannot convert to Int64: " ++ s)
  | .null => .error "cannot convert NA to Int64"

/-- Line 181: `df[col].fillna(0).astype('Int64').astype(str).replace('0', None)`
on one cell. -/
def idCellPipe (c : Cell) : Except String Cell :=
  (astypeInt64Cell (fillnaZero c)).map (fun n =>
    let s := renderIntStr n
    if s = "0" then Cell.null else Cell.strv s)

/-- Lines 179-181 for one column; note there is no try/except around this
step in the source. -/
def idCol (c : Column) : Except String Column :=
  if c.name ∈ ID_COLUMNS then
    (mapE idCellPipe c.cells).map (fun cs => { c with dtype := Dtype.obj, cells := cs })
  else .ok c

def idStepsDf (df : DataFrame) : Except String DataFrame := mapE idCol df

/-- `astype(str)` on a cell of a column as read from the CSV: a missing cell
is `np.nan` at this point and stringifies to `"nan"`. -/
def astypeStrReadCell (c : Cell) : Cell :=
  match c with
  | .null => .strv "nan"
  | .intv n => .strv (renderIntStr n)
  | .floatv n => .strv (renderIntStr n ++ ".0")
  | .strv s => .strv s

def priorCol (c : Column) : Column :=
  if c.name = PRIOR_COL then { c with dtype := Dtype.obj, cells := c.cells.map astypeStrReadCell }
  else c

/-- Line 184: `df["priorizacao_dispatching"] = df["priorizacao_dispatching"].astype(str)` —
unconditional, raises `KeyError` when the column is absent. -/
def priorStepDf (df : DataFrame) : Except String DataFrame :=
  if containsName PRIOR_COL df then .ok (df.map priorCol)
  else .error "KeyError: priorizacao_dispatching"

/-- Line 187 on one cell: missing cells stay the canonical null, sentinel
strings become null, everything else is unchanged. -/
def sentCell (c : Cell) : Cell :=
  match c with
  | .strv s => if s ∈ SENTINELS then .null else .strv s
  | _ => c

def sentCol (c : Column) : Column := { c with cells := c.cells.map sentCell }

def sentinelDf (df : DataFrame) : DataFrame := df.map sentCol

/-- Lines 190-191 on one cell of an object column:
`astype(str).replace("None", None)`.  A null cell here is `None` (line 187
canonicalised it), so `astype(str)` yields `"None"`, which the `replace`
immediately converts back to null. -/
def textCell (c : Cell) : Cell :=
  match c with
  | .null => .null
  | .strv s => if s = "None" then .null else .strv s
  | .intv n => .strv (renderIntStr n)
  | .floatv n => .strv (renderIntStr n ++ ".0")

def textCol (c : Column) : Column :=
  if c.dtype = Dtype.obj then { c with cells := c.cells.map textCell } else c

def textDf (df : DataFrame) : DataFrame := df.map textCol

/-- `ExcelFileHendler._process_dataframe` (lines 143-193), as a fallible
transformation: the per-date-column try/except is modelled by `dateCol`
being total, while the id cast, the duplicate `update_time` insert and the
`priorizacao_dispatching` access raise. -/
def processDataframe (u : Option String) (df0 : DataFrame) : Except String DataFrame := do
  let df1 := renameDf df0
  let df2 ← insertUpdateTime u df1
  let df3 := dateStepsDf df2
  let df4 ← idStepsDf df3
  let df5 ← priorStepDf df4
  .ok (textDf (sentinelDf df5))

/-! ## CSV reading (`pd.read_csv(..., sep=';')`)

A decoded file is a header plus rows of raw string tokens.  Type inference
follows pandas restricted to the token shapes that occur here: a column of
integer literals is `int64`, integer literals with missing tokens is
`float64`, anything else is `object`; missing tokens are pandas' default
`na_values` (restricted to the ones relevant to this data). -/

structure Content where
  header : List String
  rows : List (List String)
deriving DecidableEq, Repr

def NA_TOKENS : List String := ["", "nan", "NaN", "None", "null", "NULL", "NA", "N/A"]

def isNaTok (s : String) : Bool := s ∈ NA_TOKENS

def isIntTok (s : String) : Bool := (parseIntStr s).isSome

def colRaws (rows : List (List String)) (i : Nat) : List String :=
  rows.map (fun r => r.getD i "")

def inferColumn (nm : String) (raws : List String) : Column :=
  if raws.isEmpty then ⟨nm, .obj, []⟩
  else if raws.all (fun s => isIntTok s || isNaTok s) then
    if raws.any (fun s => isNaTok s) then
      ⟨nm, .float64, raws.map (fun s =>
        if isNaTok s then .null else
        match parseIntStr s with
        | some n => .floatv n
        | none => .floatv 0)⟩
    else
      ⟨nm, .int64, raws.map (fun s =>
        match parseIntStr s with
        | some n => .intv n
        | none => .intv 0)⟩
  else ⟨nm, .obj, raws.map (fun s => if isNaTok s then .null else .strv s)⟩

def readCsv (c : Content) : DataFrame :=
  (List.range c.header.length).map
    (fun i => inferColumn (c.header.getD i "") (colRaws c.rows i))

/-- Parsing one raw token under an explicitly supplied dtype (the cached
schema of the large-file path): `int64` rejects missing values, `float64`
rejects non-numeric tokens — both raise `ValueError` in pandas. -/
def parseCellWith (dt : Dtype) (s : String) : Except String Cell :=
  match dt with
  | .int64 =>
    if isNaTok s then .error "Integer column has NA values"
    else
      match parseIntStr s with
      | some n => .ok (.intv n)
      | none => .error ("invalid literal for int64: " ++ s)
  | .float64 =>
    if isNaTok s then .ok .null
    else
      match parseIntStr s with
      | some n => .ok (.floatv n)
      | none => .error ("could not convert string to float: " ++ s)
  | .obj => .ok (if isNaTok s then .null else .strv s)

def readCsvWith (dts : List Dtype) (header : List String) (rows : List (List String)) :
    Except String DataFrame :=
  mapE (fun i =>
      (mapE (fun s => parseCellWith (dts.getD i .obj) s) (colRaws rows i)).map
        (fun cs => ⟨header.getD i "", dts.getD i .obj, cs⟩))
    (List.range header.length)

def inferDtypes (c : Content) : List Dtype := (readCsv c).map (fun col => col.dtype)

/-- Row chunking with chunk size `k` (fuel-based so it reduces in the
kernel; the fuel `l.length` always suffices). -/
def chunkListAux : Nat → Nat → List α → List (List α)
  | 0, _, _ => []
  | fuel + 1, k, l =>
    match l with
    | [] => []
    | x :: xs => (x :: xs.take (k - 1)) :: chunkListAux fuel k (xs.drop (k - 1))

def chunkList (k : Nat) (l : List α) : List (List α) := chunkListAux l.length k l

/-- `pd.concat(chunks, ignore_index=True)` for data frames sharing one
schema: columns are stacked pairwise. -/
def concat2 (a b : DataFrame) : DataFrame :=
  List.zipWith (fun c d =>
    ⟨c.name, if c.dtype = d.dtype then c.dtype else .obj, c.cells ++ d.cells⟩) a b

def concatDfs : List DataFrame → DataFrame
  | [] => []
  | d :: ds => ds.foldl concat2 d

/-- `ExcelFileHendler._load_small_csv` on decoded content (the encoding
cascade is modelled at the file layer: this function receives content that
decoded successfully). -/
def loadSmallCsv (u : Option String) (c : Content) : FileProcessingResult :=
  match processDataframe u (readCsv c) with
  | .ok df => ⟨true, "✅ Arquivo processado com sucesso.", some df, 0⟩
  | .error e => ⟨false, "❌ Erro: " ++ e, none, 0⟩

/-- One chunk of the second pass of `_load_large_csv`: read with the cached
dtypes, then normalise. -/
def processChunk (u : Option String) (cache : List Dtype) (header : List String)
    (ch : List (List String)) : Except String DataFrame := do
  let df ← readCsvWith cache header ch
  processDataframe u df

/-- `ExcelFileHendler._load_large_csv` on decoded content.  The sampling
pass (`chunksize=1000; next(reader)`) raises `StopIteration` on a file with
no data rows, which the source catches and misreports as an encoding
failure.  Otherwise the dtypes inferred on the first 1000 rows are cached
and forced (`dtype=self._column_types_cache`) on every chunk of the second
pass; each chunk is normalised independently and the results concatenated. -/
def loadLargeCsv (u : Option String) (c : Content) : FileProcessingResult :=
  if c.rows.isEmpty then
    ⟨false, "⚠️ Não foi possível detectar o encoding do CSV.", none, 0⟩
  else
    match mapE (processChunk u (inferDtypes ⟨c.header, c.rows.take 1000⟩) c.header)
        (chunkList CHUNK_SIZE c.rows) with
    | .error e => ⟨false, "❌ Erro no processamento: " ++ e, none, 0⟩
    | .ok dfs => ⟨true, "✅ Processado com sucesso", some (concatDfs dfs), dfs.length⟩

/-! ## File layer (`_find_most_recent_file`, `_should_use_chunks`,
`_load_to_dataframe`, `process_most_recent_file`) -/

/-- A file in the downloads directory: `data = none` means no candidate
encoding decodes it. -/
structure FileEntry where
  name : String
  mtime : Nat
  size : Nat
  data : Option Content
deriving DecidableEq, Repr

/-- `name.startswith(prefix)`-style glob match, structural over the
character list so it reduces in the kernel. -/
def strStartsWith (s pfx : String) : Bool := pfx.data.isPrefixOf s.data

def pickNewer (a b : FileEntry) : FileEntry := if b.mtime > a.mtime then b else a

/-- `_find_most_recent_file`: glob `prefix*`, raise `FileNotFoundError` when
nothing matches, else `max(files, key=mtime)` (Python's `max` keeps the
first maximum). -/
def findMostRecentFile (pfx : String) (files : List FileEntry) : Except String FileEntry :=
  match files.filter (fun f => strStartsWith f.name pfx) with
  | [] => .error ("Nenhum arquivo com prefixo " ++ pfx ++ " encontrado")
  | f :: fs => .ok (fs.foldl pickNewer f)

/-- `_should_use_chunks`: real-valued `size/1024 > 10000` is equivalent to
`size > 10000 * 1024` over the integers. -/
def shouldUseChunks (size : Nat) : Bool :=
  size > CSV_SIZE_TRESHOLD * 1024 * 1024 || size > CHUNK_SIZE * (AVG_LINE_SIZE_KB * 1024)

/-- `_load_small_csv` at the file level: the encoding loop leaves `df` as
`None` when no candidate decodes, and the resulting `ValueError` is caught
by the function's own handler. -/
def loadSmallCsvFile (u : Option String) (e : FileEntry) : FileProcessingResult :=
  match e.data with
  | none => ⟨false, "❌ Erro: Não foi possível ler o CSV com os encodings suportados.", none, 0⟩
  | some c => loadSmallCsv u c

/-- `_load_large_csv` at the file level: an undecodable file fails the
sampling pass for every encoding. -/
def loadLargeCsvFile (u : Option String) (e : FileEntry) : FileProcessingResult :=
  match e.data with
  | none => ⟨false, "⚠️ Não foi possível detectar o encoding do CSV.", none, 0⟩
  | some c => loadLargeCsv u c

/-- `_load_to_dataframe`. -/
def loadToDataframe (u : Option String) (e : FileEntry) : FileProcessingResult :=
  if shouldUseChunks e.size then loadLargeCsvFile u e else loadSmallCsvFile u e

/-- `process_most_recent_file`: an explicitly supplied path short-circuits
discovery; every raising step is inside the outer try/except, which captures
the failure into a result value. -/
def processMostRecentFile (u : Option String) (pfx : String) (files : List FileEntry)
    (tgt : Option FileEntry) : FileProcessingResult :=
  match (match tgt with
         | some e => Except.ok e
         | none => findMostRecentFile pfx files) with
  | .ok e => loadToDataframe u e
  | .error msg => ⟨false, "❌ Erro ao processar arquivo: " ++ msg, none, 0⟩

/-! ## Browser session (`scraper_4field_async.py`)

Each wait condition (network-idle, document-ready, one
`wait_for_selector` per requested element) either completes or throws; its
terminal behaviour is an element of `TaskOutcome`.  `asyncio.gather` over
such tasks is modelled by `gatherResults`: with `return_exceptions=False`
the first failure propagates as an exception and the remaining results are
never collected; with `return_exceptions=True` the outcome list itself is
returned. -/

inductive TaskOutcome
  | done
  | threw (msg : String)
deriving DecidableEq, Repr

def isThrown : TaskOutcome → Bool
  | .done => false
  | .threw _ => true

def firstThrown : List TaskOutcome → Option String
  | [] => none
  | .threw m :: _ => some m
  | .done :: rest => firstThrown rest

def gatherResults (returnExceptions : Bool) (ts : List TaskOutcome) :
    Except String (List TaskOutcome) :=
  if returnExceptions then .ok ts
  else
    match firstThrown ts with
    | some m => .error m
    | none => .ok ts

/-- `_load_page_coroutines` (lines 98-113): gathers with
`return_exceptions=False`, then checks
`all(not isinstance(result, Exception) for result in results)`. -/
def loadPageCoroutines (conds : List TaskOutcome) : Except String Bool :=
  (gatherResults false conds).map (fun rs => rs.all (fun r => !isThrown r))

/-- `_wait_for_page` on the non-timeout paths: a success/failure boolean
from the gathered conditions, any propagated exception caught by the
final generic handler (returns `False`).  The overall-timeout fallback
re-probe is outside this model. -/
def waitForPage (conds : List TaskOutcome) : Bool :=
  match loadPageCoroutines conds with
  | .ok b => b
  | .error _ => false

/-- The externally determined outcomes one run of the workflow can observe:
the login-side steps, whether the opening backlog click of `_export_data`
raises (`exportClickThrows = some msg`), and the result the rest of the
export body would produce. -/
structure ScraperWorld where
  navThrows : Bool
  loginPageConds : List TaskOutcome
  fillLoginOk : Bool
  fillPasswordOk : Bool
  submitThrows : Bool
  homeConds : List TaskOutcome
  exportClickThrows : Option String
  exportResult : Option String
deriving DecidableEq, Repr

/-- `_login` (lines 217-258): fail-fast on navigation, page readiness,
each `_safe_fill`, submission, then the authenticated-marker wait; any
exception is caught and reported as `False`. -/
def loginStep (w : ScraperWorld) : Bool :=
  if w.navThrows then false
  else if !(waitForPage w.loginPageConds) then false
  else if !w.fillLoginOk then false
  else if !w.fillPasswordOk then false
  else if w.submitThrows then false
  else waitForPage w.homeConds

/-- `_export_data` (lines 260-296): the opening
`self.page.locator(self.selectors["fn_backlog"]).click()` on line 262 sits
*outside* the `try`, so an exception there propagates to the caller; the
remainder of the body is wrapped in `try/except` and resolves to an
`Optional[Path]` without raising. -/
def exportData (w : ScraperWorld) : Except String (Option String) :=
  match w.exportClickThrows with
  | some e => .error e
  | none => .ok w.exportResult

/-- `execute_process_4field` (lines 335-339): when `_login()` is truthy the
export coroutine is awaited — an exception escaping it propagates out of this
function too, which has no handler — its value is discarded on normal return
and `True` is returned; otherwise the function body ends without `return`,
i.e. Python returns `None` (modelled as `.ok none`). -/
def executeProcess4field (w : ScraperWorld) : Except String (Option Bool) :=
  if loginStep w then (exportData w).map (fun _ => some true)
  else .ok none

/-! ## Generic helper lemmas -/

theorem except_bind_ok {α β : Type} {ma : Except String α} {f : α → Except String β} {b : β}
    (h : (ma >>= f) = .ok b) : ∃ a, ma = .ok a ∧ f a = .ok b := by
  cases ma with
  | error e => exact absurd h (by simp [Bind.bind, Except.bind])
  | ok a => exact ⟨a, rfl, by simpa [Bind.bind, Except.bind] using h⟩

theorem mapE_cons {f : α → Except String β} {x : α} {xs : List α} :
    mapE f (x :: xs) = (f x).bind (fun y => (mapE f xs).bind (fun ys => .ok (y :: ys))) := by
  simp [mapE, Bind.bind]

theorem mapE_ok_length {f : α → Except String β} :
    ∀ {l : List α} {l' : List β}, mapE f l = .ok l' → l'.length = l.length := by
  intro l
  induction l with
  | nil => intro l' h; simp [mapE] at h; simp [← h]
  | cons x xs ih =>
    intro l' h
    rw [mapE_cons] at h
    cases hx : f x with
    | error e => rw [hx] at h; exact absurd h (by simp [Except.bind])
    | ok y =>
      rw [hx] at h
      cases hxs : mapE f xs with
      | error e => rw [hxs] at h; exact absurd h (by simp [Except.bind])
      | ok ys =>
        rw [hxs] at h
        simp [Except.bind] at h
        simp [← h, ih hxs]

theorem mapE_error {f : α → Except String β} :
    ∀ {l : List α} {e : String}, mapE f l = .error e → ∃ x ∈ l, f x = .error e := by
  intro l
  induction l with
  | nil => intro e h; exact absurd h (by simp [mapE])
  | cons x xs ih =>
    intro e h
    rw [mapE_cons] at h
    cases hx : f x with
    | error e2 =>
      rw [hx] at h
      simp [Except.bind] at h
      exact ⟨x, List.mem_cons_self _ _, by rw [hx, h]⟩
    | ok y =>
      rw [hx] at h
      cases hxs : mapE f xs with
      | error e2 =>
        rw [hxs] at h
        simp [Except.bind] at h
        obtain ⟨z, hz, hze⟩ := ih (hxs.trans (by rw [h]))
        exact ⟨z, List.mem_cons_of_mem _ hz, hze⟩
      | ok ys =>
        rw [hxs] at h
        exact absurd h (by simp [Except.bind])

theorem mapE_eq_map_of_ok {f : α → Except String β} {g : α → β} :
    ∀ {l : List α}, (∀ x ∈ l, f x = .ok (g x)) → mapE f l = .ok (l.map g) := by
  intro l
  induction l with
  | nil => intro _; rfl
  | cons x xs ih =>
    intro h
    rw [mapE_cons, h x (List.mem_cons_self _ _), ih (fun z hz => h z (List.mem_cons_of_mem _ hz))]
    simp [Except.bind]

theorem mapE_exists {f : α → Except String β} {P : α → β → Prop} :
    ∀ {l : List α}, (∀ x ∈ l, ∃ y, f x = .ok y ∧ P x y) →
      ∃ l', mapE f l = .ok l' ∧ List.Forall₂ P l l' := by
  intro l
  induction l with
  | nil => exact fun _ => ⟨[], rfl, List.Forall₂.nil⟩
  | cons x xs ih =>
    intro h
    obtain ⟨y, hy, hPy⟩ := h x (List.mem_cons_self _ _)
    obtain ⟨l', hl', hP⟩ := ih (fun z hz => h z (List.mem_cons_of_mem _ hz))
    refine ⟨y :: l', ?_, List.Forall₂.cons hPy hP⟩
    rw [mapE_cons, hy, hl']
    simp [Except.bind]

theorem mapE_forall₂ {f : α → Except String β} :
    ∀ {l : List α} {l' : List β}, mapE f l = .ok l' →
      List.Forall₂ (fun x y => f x = .ok y) l l' := by
  intro l
  induction l with
  | nil =>
    intro l' h
    simp [mapE] at h
    subst h
    exact List.Forall₂.nil
  | cons x xs ih =>
    intro l' h
    rw [mapE_cons] at h
    cases hx : f x with
    | error e => rw [hx] at h; exact absurd h (by simp [Except.bind])
    | ok y =>
      rw [hx] at h
      cases hxs : mapE f xs with
      | error e => rw [hxs] at h; exact absurd h (by simp [Except.bind])
      | ok ys =>
        rw [hxs] at h
        simp [Except.bind] at h
        rw [← h]
        exact List.Forall₂.cons hx (ih hxs)

theorem mapE_map {f : β → Except String γ} {g : α → β} :
    ∀ (l : List α), mapE f (l.map g) = mapE (fun x => f (g x)) l := by
  intro l
  induction l with
  | nil => rfl
  | cons x xs ih => simp [mapE, ih]

theorem forall₂_mem_right {R : α → β → Prop} :
    ∀ {l : List α} {l' : List β}, List.Forall₂ R l l' → ∀ y ∈ l', ∃ x ∈ l, R x y := by
  intro l l' h
  induction h with
  | nil => intro y hy; exact absurd hy (by simp)
  | @cons a b as bs hR hrest ih =>
    intro y hy
    rcases List.mem_cons.mp hy with h2 | h2
    · refine ⟨a, List.mem_cons_self _ _, ?_⟩
      rw [h2]
      exact hR
    · obtain ⟨x, hx, hxy⟩ := ih y h2
      exact ⟨x, List.mem_cons_of_mem _ hx, hxy⟩

theorem strAppend_ne_empty {s t : String} (h : s.data ≠ []) : s ++ t ≠ "" := by
  intro he
  have hd : (s ++ t).data = s.data ++ t.data := rfl
  rw [he] at hd
  have : s.data ++ t.data = [] := hd.symm
  exact h (List.append_eq_nil.mp this).1

/-! ## Claim theorems -/

/-- C1: the spec says the date columns are parsed day-first
(`DD/MM/YYYY HH:MM:SS`) and that the 2-row scenario CSV yields
`id_4field`/`criacao_do_ntt` with row 1 = ("123", "2024-02-01 10:00:00") and
row 2 = (null, null).  The code contradicts this: `_process_dataframe` never
passes `format=self.DATETIME_FORMAT` to `pd.to_datetime`, so the ambiguous
value `01/02/2024 10:00:00` is parsed month-first to `2024-01-02 10:00:00`;
moreover, on the exact 2-column scenario the unconditional
`df["priorizacao_dispatching"]` access raises `KeyError` and no output table
is produced at all.  This theorem evaluates the embedded code at the failing
input (and at the input augmented with the mandatory free-text column). -/
theorem c1_date_columns_monthfirst_bug :
    processDataframe none (readCsv ⟨["Id 4Field", "Criação do NTT"],
        [["123", "01/02/2024 10:00:00"], ["", ""]]⟩)
      = Except.error "KeyError: priorizacao_dispatching" ∧
    processDataframe none (readCsv ⟨["Id 4Field", "Criação do NTT", "Priorização Dispatching"],
        [["123", "01/02/2024 10:00:00", "x"], ["", "", ""]]⟩)
      = Except.ok [⟨"id_4field", Dtype.obj, [Cell.strv "123", Cell.null]⟩,
          ⟨"criacao_do_ntt", Dtype.obj, [Cell.strv "2024-01-02 10:00:00", Cell.null]⟩,
          ⟨"priorizacao_dispatching", Dtype.obj, [Cell.strv "x", Cell.null]⟩] ∧
    ("2024-01-02 10:00:00" : String) ≠ "2024-02-01 10:00:00" := by
  refine ⟨rfl, rfl, by decide⟩

/-- C2 counterexample: normalization is not idempotent as claimed.  When an
`update_time` was supplied (the normal pipeline situation), re-running
`_process_dataframe` on its own output raises, because `df.insert` refuses
to insert the already-present `update_time` column. -/
theorem c2_idempotence_cex :
    processDataframe (some "2024-01-01 00:00:00")
        [⟨"priorizacao_dispatching", Dtype.obj, [Cell.strv "x"]⟩]
      = Except.ok [⟨"update_time", Dtype.obj, [Cell.strv "2024-01-01 00:00:00"]⟩,
          ⟨"priorizacao_dispatching", Dtype.obj, [Cell.strv "x"]⟩] ∧
    processDataframe (some "2024-01-01 00:00:00")
        [⟨"update_time", Dtype.obj, [Cell.strv "2024-01-01 00:00:00"]⟩,
          ⟨"priorizacao_dispatching", Dtype.obj, [Cell.strv "x"]⟩]
      = Except.error "cannot insert update_time, already exists" := by
  refine ⟨rfl, rfl⟩

/-- C5 counterexample: a single uncastable identifier column is *not*
recovered locally — the `fillna(0).astype('Int64')` chain has no try/except,
the exception aborts `_process_dataframe`, and the file-level result becomes
a failure with no table. -/
theorem c5_id_failure_aborts_file_cex :
    processDataframe none (readCsv ⟨["Id 4Field", "Priorização Dispatching"], [["abc", "x"]]⟩)
      = Except.error "cannot convert to Int64: abc" ∧
    (loadSmallCsv none ⟨["Id 4Field", "Priorização Dispatching"], [["abc", "x"]]⟩).sucess
      = false ∧
    (loadSmallCsv none ⟨["Id 4Field", "Priorização Dispatching"], [["abc", "x"]]⟩).dataframe
      = none := by
  refine ⟨rfl, by decide, by decide⟩

/-- C8 counterexample: on decodable content with zero data rows the two
paths disagree: the chunked path's sampling `next(reader)` raises
`StopIteration` for every candidate encoding, so `_load_large_csv` reports
an encoding-detection failure and produces no table, while `_load_small_csv`
succeeds with an empty table. -/
theorem c8_chunk_vs_small_cex :
    loadLargeCsv none ⟨["Priorização Dispatching"], []⟩
      = ⟨false, "⚠️ Não foi possível detectar o encoding do CSV.", none, 0⟩ ∧
    (loadSmallCsv none ⟨["Priorização Dispatching"], []⟩).sucess = true ∧
    (loadSmallCsv none ⟨["Priorização Dispatching"], []⟩).dataframe
      = some [⟨"priorizacao_dispatching", Dtype.obj, []⟩] := by
  refine ⟨by decide, by decide, by decide⟩


/-- C6: the spec claims the three wait conditions are all evaluated to
completion with failures collected, not short-circuited.  The code calls
`asyncio.gather(*tasks, return_exceptions=False)`, which propagates the
first exception immediately; the subsequent
`all(not isinstance(result, Exception) ...)` check (line 113) is dead code —
it can only matter with `return_exceptions=True`, which is what the spec
describes.  Evaluated at a failing input: one throwing condition and one
completing condition make `_load_page_coroutines` raise (never reaching the
collected check), `_wait_for_page` returns `False` via its generic handler,
whereas gathering with `return_exceptions=True` would have collected both
outcomes. -/
theorem c6_wait_conditions_short_circuit :
    loadPageCoroutines [TaskOutcome.threw "selector timeout", TaskOutcome.done]
      = Except.error "selector timeout" ∧
    waitForPage [TaskOutcome.threw "selector timeout", TaskOutcome.done] = false ∧
    gatherResults true [TaskOutcome.threw "selector timeout", TaskOutcome.done]
      = Except.ok [TaskOutcome.threw "selector timeout", TaskOutcome.done] ∧
    ((gatherResults true [TaskOutcome.threw "selector timeout", TaskOutcome.done]).map
        (fun rs => rs.all (fun r => !isThrown r)))
      = Except.ok false := by
  refine ⟨rfl, by decide, rfl, rfl⟩

/-- C10 counterexample to the original claim: at a world whose login fully
succeeds but whose opening backlog click raises (that click, line 262, is
outside `_export_data`'s `try/except` and `execute_process_4field` has no
handler), the workflow propagates the exception instead of returning
`True` — so login success alone does not guarantee a `True` return. -/
theorem c10_click_throw_cex :
    loginStep ⟨false, [TaskOutcome.done], true, true, false, [TaskOutcome.done],
      some "TimeoutError: locator.click", none⟩ = true ∧
    executeProcess4field ⟨false, [TaskOutcome.done], true, true, false, [TaskOutcome.done],
      some "TimeoutError: locator.click", none⟩
      = Except.error "TimeoutError: locator.click" ∧
    executeProcess4field ⟨false, [TaskOutcome.done], true, true, false, [TaskOutcome.done],
      some "TimeoutError: locator.click", none⟩ ≠ Except.ok (some true) := by
  refine ⟨rfl, rfl, fun h => ?_⟩
  have h2 : (Except.error "TimeoutError: locator.click" : Except String (Option Bool)) =
      Except.ok (some true) := h
  cases h2

/-- C10 (corrected): provided the opening backlog click does not raise,
`execute_process_4field` returns `True` exactly when `_login()` succeeds —
the export body's outcome (failure or a missing validated file) is caught
inside `_export_data` and cannot change the return value — and when login
fails the function falls through to Python `None` (never `False`); but when
the click raises after a successful login, the exception propagates out of
the workflow instead of `True` being returned. -/
theorem c10_login_gates_result_unless_click_throws (w : ScraperWorld) :
    (w.exportClickThrows = none →
      ((executeProcess4field w = .ok (some true) ↔ loginStep w = true) ∧
        (loginStep w = false → executeProcess4field w = .ok none) ∧
        (∀ p, executeProcess4field { w with exportResult := p } =
          executeProcess4field w))) ∧
    executeProcess4field w ≠ .ok (some false) ∧
    (∀ e, w.exportClickThrows = some e → loginStep w = true →
      executeProcess4field w = .error e) := by
  have hlog : ∀ p, loginStep { w with exportResult := p } = loginStep w := fun _ => rfl
  have hclick : ∀ p, ({ w with exportResult := p } : ScraperWorld).exportClickThrows =
      w.exportClickThrows := fun _ => rfl
  refine ⟨?_, ?_, ?_⟩
  · intro hnone
    by_cases h : loginStep w
    · refine ⟨by simp [executeProcess4field, exportData, Except.map, h, hnone],
        by simp [h], ?_⟩
      intro p
      have hright : executeProcess4field w = .ok (some true) := by
        simp [executeProcess4field, exportData, Except.map, h, hnone]
      have hleft : executeProcess4field { w with exportResult := p } = .ok (some true) := by
        unfold executeProcess4field
        rw [hlog p, if_pos h]
        unfold exportData
        rw [hclick p, hnone]
        rfl
      rw [hleft, hright]
    · refine ⟨by simp [executeProcess4field, h], by simp [executeProcess4field, h], ?_⟩
      intro p
      simp [executeProcess4field, hlog p, h]
  · by_cases h : loginStep w
    · cases hc : w.exportClickThrows with
      | none => simp [executeProcess4field, exportData, Except.map, h, hc]
      | some e => simp [executeProcess4field, exportData, Except.map, h, hc]
    · simp [executeProcess4field, h]
  · intro e he hlg
    simp [executeProcess4field, exportData, Except.map, hlg, he]

/-- C10 witness: at a fully successful world with a non-raising click the
workflow returns `True`, and at a world whose login navigation throws it
returns `None`. -/
theorem c10_login_gates_result_unless_click_throws_witness :
    executeProcess4field ⟨false, [TaskOutcome.done], true, true, false, [TaskOutcome.done],
      none, some "backlog.csv"⟩ = Except.ok (some true) ∧
    executeProcess4field ⟨true, [], false, false, false, [], none, none⟩ = Except.ok none :=
  ⟨(((c10_login_gates_result_unless_click_throws
      ⟨false, [TaskOutcome.done], true, true, false, [TaskOutcome.done],
        none, some "backlog.csv"⟩).1 rfl).1).mpr rfl,
   ((c10_login_gates_result_unless_click_throws
      ⟨true, [], false, false, false, [], none, none⟩).1 rfl).2.1 rfl⟩

/-! ## File discovery and pipeline-boundary lemmas -/

theorem foldl_pickNewer_spec :
    ∀ (fs : List FileEntry) (f : FileEntry),
      (fs.foldl pickNewer f = f ∨ fs.foldl pickNewer f ∈ fs) ∧
      f.mtime ≤ (fs.foldl pickNewer f).mtime ∧
      ∀ g ∈ fs, g.mtime ≤ (fs.foldl pickNewer f).mtime := by
  intro fs
  induction fs with
  | nil => intro f; simp
  | cons a as ih =>
    intro f
    simp only [List.foldl_cons]
    obtain ⟨hmem, hle, hall⟩ := ih (pickNewer f a)
    have hpick : pickNewer f a = f ∨ pickNewer f a = a := by
      unfold pickNewer; split <;> simp
    have hfle : f.mtime ≤ (pickNewer f a).mtime := by
      unfold pickNewer; split <;> omega
    have hale : a.mtime ≤ (pickNewer f a).mtime := by
      unfold pickNewer; split <;> omega
    refine ⟨?_, le_trans hfle hle, ?_⟩
    · rcases hmem with h | h
      · rw [h]
        rcases hpick with h2 | h2
        · exact Or.inl h2
        · rw [h2]
          exact Or.inr (List.mem_cons_self a as)
      · exact Or.inr (List.mem_cons_of_mem _ h)
    · intro g hg
      rcases List.mem_cons.mp hg with h | h
      · rw [h]
        exact le_trans hale hle
      · exact hall g h

theorem findMostRecentFile_empty {pfx : String} {files : List FileEntry}
    (h : files.filter (fun f => strStartsWith f.name pfx) = []) :
    findMostRecentFile pfx files
      = Except.error ("Nenhum arquivo com prefixo " ++ pfx ++ " encontrado") := by
  unfold findMostRecentFile
  rw [h]

theorem findMostRecentFile_cons {pfx : String} {files : List FileEntry} {f : FileEntry}
    {fs : List FileEntry}
    (h : files.filter (fun f => strStartsWith f.name pfx) = f :: fs) :
    findMostRecentFile pfx files = Except.ok (fs.foldl pickNewer f) := by
  unfold findMostRecentFile
  rw [h]

/-- C7: `_find_most_recent_file` globs `prefix*`; when nothing matches it
raises `FileNotFoundError` (no silent empty result), otherwise it returns a
matching file of maximal modification time (`max(files, key=mtime)`). -/
theorem c7_most_recent_selection (pfx : String) (files : List FileEntry) :
    (files.filter (fun f => strStartsWith f.name pfx) = [] →
      ∃ msg, findMostRecentFile pfx files = Except.error msg) ∧
    (files.filter (fun f => strStartsWith f.name pfx) ≠ [] →
      ∃ e, findMostRecentFile pfx files = Except.ok e ∧
        e ∈ files.filter (fun f => strStartsWith f.name pfx) ∧
        ∀ f ∈ files.filter (fun f => strStartsWith f.name pfx), f.mtime ≤ e.mtime) := by
  constructor
  · intro h
    exact ⟨_, findMostRecentFile_empty h⟩
  · intro h
    cases hf : files.filter (fun f => strStartsWith f.name pfx) with
    | nil => exact absurd hf h
    | cons f fs =>
      obtain ⟨hmem, hle, hall⟩ := foldl_pickNewer_spec fs f
      refine ⟨fs.foldl pickNewer f, findMostRecentFile_cons hf, ?_, ?_⟩
      · rcases hmem with h2 | h2
        · rw [h2]
          exact List.mem_cons_self f fs
        · exact List.mem_cons_of_mem _ h2
      · intro g hg
        rcases List.mem_cons.mp hg with h2 | h2
        · rw [h2]
          exact hle
        · exact hall g h2

/-- C7 witness: over the two-file scenario directory with `backlog` as the
glob pattern, discovery selects `backlog_2025.csv`, the file with the larger
modification time. -/
theorem c7_most_recent_selection_witness :
    ∃ e, findMostRecentFile "backlog"
        [⟨"backlog_2024.csv", 1, 0, none⟩, ⟨"backlog_2025.csv", 2, 0, none⟩]
        = Except.ok e ∧
      e ∈ ([⟨"backlog_2024.csv", 1, 0, none⟩,
            ⟨"backlog_2025.csv", 2, 0, none⟩] : List FileEntry).filter
          (fun f => strStartsWith f.name "backlog") ∧
      ∀ f ∈ ([⟨"backlog_2024.csv", 1, 0, none⟩,
              ⟨"backlog_2025.csv", 2, 0, none⟩] : List FileEntry).filter
          (fun f => strStartsWith f.name "backlog"), f.mtime ≤ e.mtime :=
  (c7_most_recent_selection "backlog"
    [⟨"backlog_2024.csv", 1, 0, none⟩, ⟨"backlog_2025.csv", 2, 0, none⟩]).2 (by decide)

theorem loadSmallCsv_good (u : Option String) (c : Content) :
    ((loadSmallCsv u c).sucess = true → ∃ df, (loadSmallCsv u c).dataframe = some df) ∧
    ((loadSmallCsv u c).sucess = false → (loadSmallCsv u c).message ≠ "") := by
  unfold loadSmallCsv
  cases processDataframe u (readCsv c) with
  | ok df => exact ⟨fun _ => ⟨df, rfl⟩, fun h => absurd h (by simp)⟩
  | error e => exact ⟨fun h => absurd h (by simp), fun _ => strAppend_ne_empty (by decide)⟩

theorem loadLargeCsv_good (u : Option String) (c : Content) :
    ((loadLargeCsv u c).sucess = true → ∃ df, (loadLargeCsv u c).dataframe = some df) ∧
    ((loadLargeCsv u c).sucess = false → (loadLargeCsv u c).message ≠ "") := by
  unfold loadLargeCsv
  by_cases he : c.rows.isEmpty
  · simp only [he, if_true]
    exact ⟨fun h => absurd h (by simp), fun _ => by decide⟩
  · simp only [he, if_false]
    cases mapE (processChunk u (inferDtypes ⟨c.header, c.rows.take 1000⟩) c.header)
        (chunkList CHUNK_SIZE c.rows) with
    | ok dfs => exact ⟨fun _ => ⟨concatDfs dfs, rfl⟩, fun h => absurd h (by simp)⟩
    | error e => exact ⟨fun h => absurd h (by simp), fun _ => strAppend_ne_empty (by decide)⟩

theorem loadToDataframe_good (u : Option String) (e : FileEntry) :
    ((loadToDataframe u e).sucess = true → ∃ df, (loadToDataframe u e).dataframe = some df) ∧
    ((loadToDataframe u e).sucess = false → (loadToDataframe u e).message ≠ "") ∧
    (e.data = none → (loadToDataframe u e).sucess = false) := by
  cases hd : e.data with
  | none =>
    by_cases hc : shouldUseChunks e.size
    · have hr : loadToDataframe u e
          = ⟨false, "⚠️ Não foi possível detectar o encoding do CSV.", none, 0⟩ := by
        unfold loadToDataframe loadLargeCsvFile
        rw [if_pos hc, hd]
      rw [hr]
      exact ⟨fun h => absurd h (by simp), fun _ => by decide, fun _ => rfl⟩
    · have hr : loadToDataframe u e
          = ⟨false, "❌ Erro: Não foi possível ler o CSV com os encodings suportados.",
              none, 0⟩ := by
        unfold loadToDataframe loadSmallCsvFile
        rw [if_neg hc, hd]
      rw [hr]
      exact ⟨fun h => absurd h (by simp), fun _ => by decide, fun _ => rfl⟩
  | some c =>
    by_cases hc : shouldUseChunks e.size
    · have hr : loadToDataframe u e = loadLargeCsv u c := by
        unfold loadToDataframe loadLargeCsvFile
        rw [if_pos hc, hd]
      rw [hr]
      obtain ⟨h1, h2⟩ := loadLargeCsv_good u c
      refine ⟨h1, h2, ?_⟩
      intro h
      exact absurd h (by simp)
    · have hr : loadToDataframe u e = loadSmallCsv u c := by
        unfold loadToDataframe loadSmallCsvFile
        rw [if_neg hc, hd]
      rw [hr]
      obtain ⟨h1, h2⟩ := loadSmallCsv_good u c
      refine ⟨h1, h2, ?_⟩
      intro h
      exact absurd h (by simp)

/-- C9: `process_most_recent_file` always returns a `FileProcessingResult`
value (the embedding is a total function precisely because every fallible
step is wrapped by the source's try/except boundary): a successful result
always carries a table, a failed result always carries a non-empty message,
a missing input file (no prefix match and no explicit path) is captured as a
failure, and an undecodable explicit file is captured as a failure — nothing
is thrown to the caller. -/
theorem c9_result_always_captured (u : Option String) (pfx : String)
    (files : List FileEntry) (tgt : Option FileEntry) :
    ((processMostRecentFile u pfx files tgt).sucess = true →
      ∃ df, (processMostRecentFile u pfx files tgt).dataframe = some df) ∧
    ((processMostRecentFile u pfx files tgt).sucess = false →
      (processMostRecentFile u pfx files tgt).message ≠ "") ∧
    (tgt = none → files.filter (fun f => strStartsWith f.name pfx) = [] →
      (processMostRecentFile u pfx files tgt).sucess = false) ∧
    (∀ e, tgt = some e → e.data = none →
      (processMostRecentFile u pfx files tgt).sucess = false) := by
  cases tgt with
  | some e =>
    have hred : processMostRecentFile u pfx files (some e) = loadToDataframe u e := rfl
    obtain ⟨h1, h2, h3⟩ := loadToDataframe_good u e
    rw [hred]
    refine ⟨h1, h2, fun hn => absurd hn (by simp), ?_⟩
    intro e2 he2 hd
    injection he2 with he2
    exact he2 ▸ h3 (he2 ▸ hd)
  | none =>
    cases hf : findMostRecentFile pfx files with
    | error msg =>
      have hred : processMostRecentFile u pfx files none
          = ⟨false, "❌ Erro ao processar arquivo: " ++ msg, none, 0⟩ := by
        unfold processMostRecentFile
        rw [hf]
      rw [hred]
      refine ⟨fun h => absurd h (by simp), fun _ => strAppend_ne_empty (by decide),
        fun _ _ => rfl, ?_⟩
      intro e2 he2 _
      exact absurd he2 (by simp)
    | ok e =>
      have hred : processMostRecentFile u pfx files none = loadToDataframe u e := by
        unfold processMostRecentFile
        rw [hf]
      obtain ⟨h1, h2, _⟩ := loadToDataframe_good u e
      rw [hred]
      refine ⟨h1, h2, ?_, ?_⟩
      · intro _ hempty
        exact absurd (findMostRecentFile_empty hempty) (by rw [hf]; simp)
      · intro e2 he2 _
        exact absurd he2 (by simp)

/-- C9 witness: with an empty downloads directory and no explicit path, the
pipeline returns a failure result (the `FileNotFoundError` from discovery is
captured, not thrown). -/
theorem c9_result_always_captured_witness :
    (processMostRecentFile none "backlog" [] none).sucess = false :=
  (c9_result_always_captured none "backlog" [] none).2.2.1 rfl rfl

/-! ## Identifier-column cell discipline (C3) -/

/-- The id-column input values the pipeline supports: missing cells, and
non-negative integral values arriving as `int64`, `float64`, or decimal
text. -/
def SupportedIdCell (c : Cell) : Prop :=
  c = Cell.null ∨
  (∃ n : Int, 0 ≤ n ∧ (c = Cell.intv n ∨ c = Cell.floatv n)) ∨
  (∃ s n, c = Cell.strv s ∧ parseIntStr s = some n ∧ 0 ≤ n)

theorem renderIntStr_digits_of_nonneg {n : Int} (h : 0 ≤ n) (hz : n ≠ 0) :
    renderIntStr n ≠ "0" ∧ (renderIntStr n).data ≠ [] ∧
    ∀ ch ∈ (renderIntStr n).data, ch.isDigit = true := by
  refine ⟨fun he => hz ((renderIntStr_eq_zero_iff n).mp he), ?_, ?_⟩
  · exact renderIntChars_ne_nil n
  · exact renderIntChars_digits h

theorem idCellPipe_supported {c : Cell} (h : SupportedIdCell c) :
    ∃ out, idCellPipe c = Except.ok out ∧ (out = Cell.null ∨
      ∃ s, out = Cell.strv s ∧ s ≠ "0" ∧ s.data ≠ [] ∧
        ∀ ch ∈ s.data, ch.isDigit = true) := by
  have hgen : ∀ n : Int, 0 ≤ n →
      ((if renderIntStr n = "0" then Cell.null else Cell.strv (renderIntStr n)) = Cell.null ∨
        ∃ s, (if renderIntStr n = "0" then Cell.null else Cell.strv (renderIntStr n))
            = Cell.strv s ∧ s ≠ "0" ∧ s.data ≠ [] ∧ ∀ ch ∈ s.data, ch.isDigit = true) := by
    intro n hn
    by_cases hz : n = 0
    · subst hz
      rw [if_pos (by decide)]
      exact Or.inl rfl
    · obtain ⟨hne0, hdata, hdig⟩ := renderIntStr_digits_of_nonneg hn hz
      rw [if_neg hne0]
      exact Or.inr ⟨renderIntStr n, rfl, hne0, hdata, hdig⟩
  rcases h with h | ⟨n, hn, h | h⟩ | ⟨s, n, hs, hp, hn⟩
  · subst h
    exact ⟨Cell.null, rfl, Or.inl rfl⟩
  · subst h
    refine ⟨_, ?_, hgen n hn⟩
    simp [idCellPipe, fillnaZero, astypeInt64Cell, Except.map]
  · subst h
    refine ⟨_, ?_, hgen n hn⟩
    simp [idCellPipe, fillnaZero, astypeInt64Cell, Except.map]
  · subst hs
    refine ⟨_, ?_, hgen n hn⟩
    simp [idCellPipe, fillnaZero, astypeInt64Cell, hp, Except.map]

/-- C3: for every supported input cell of a designated identifier column
(`id_4field`, `id_da_atividade`), the `fillna(0).astype('Int64').astype(str)
.replace('0', None)` chain succeeds and yields either null or a non-empty
decimal-digit-only string different from "0" (hence no scientific-notation
or float artifact); a missing id goes through the zero placeholder and
comes back as null. -/
theorem c3_id_cells_digit_or_null (col : Column) (hname : col.name ∈ ID_COLUMNS)
    (hcells : ∀ c ∈ col.cells, SupportedIdCell c) :
    ∃ out, idCol col = Except.ok out ∧
      (∀ cell ∈ out.cells, cell = Cell.null ∨
        ∃ s, cell = Cell.strv s ∧ s ≠ "0" ∧ s.data ≠ [] ∧
          ∀ ch ∈ s.data, ch.isDigit = true) ∧
      idCellPipe Cell.null = Except.ok Cell.null := by
  have hmap := mapE_exists (f := idCellPipe)
    (P := fun _ out => out = Cell.null ∨
      ∃ s, out = Cell.strv s ∧ s ≠ "0" ∧ s.data ≠ [] ∧ ∀ ch ∈ s.data, ch.isDigit = true)
    (l := col.cells) (fun c hc => idCellPipe_supported (hcells c hc))
  obtain ⟨cs, hcs, hP⟩ := hmap
  refine ⟨{ col with dtype := Dtype.obj, cells := cs }, ?_, ?_, rfl⟩
  · unfold idCol
    rw [if_pos hname, hcs]
    rfl
  · intro cell hcell
    obtain ⟨x, _, hx⟩ := forall₂_mem_right hP cell hcell
    exact hx

/-- C3 witness: an id column arriving as `float64` with one value and one
missing cell normalizes to the digit string "123" and null. -/
theorem c3_id_cells_digit_or_null_witness :
    ∃ out, idCol ⟨"id_4field", Dtype.float64, [Cell.floatv 123, Cell.null]⟩ = Except.ok out ∧
      (∀ cell ∈ out.cells, cell = Cell.null ∨
        ∃ s, cell = Cell.strv s ∧ s ≠ "0" ∧ s.data ≠ [] ∧
          ∀ ch ∈ s.data, ch.isDigit = true) ∧
      idCellPipe Cell.null = Except.ok Cell.null := by
  refine c3_id_cells_digit_or_null _ (by decide) ?_
  intro c hc
  rcases List.mem_cons.mp hc with h | h
  · exact Or.inr (Or.inl ⟨123, by omega, Or.inr h⟩)
  · have : c = Cell.null := by
      rcases List.mem_cons.mp h with h2 | h2
      · exact h2
      · exact absurd h2 (by simp)
    exact Or.inl this

/-! ## Error-source inversion for `_process_dataframe` (C5) -/

theorem processDataframe_eq (u : Option String) (df0 : DataFrame) :
    processDataframe u df0
      = (insertUpdateTime u (renameDf df0)).bind (fun df2 =>
          (idStepsDf (dateStepsDf df2)).bind (fun df4 =>
            (priorStepDf df4).bind (fun df5 =>
              Except.ok (textDf (sentinelDf df5))))) := rfl

theorem insertUpdateTime_error {u : Option String} {df : DataFrame} {e : String}
    (h : insertUpdateTime u df = .error e) :
    e = "cannot insert update_time, already exists" := by
  cases u with
  | none => exact absurd h (by simp [insertUpdateTime])
  | some s =>
    by_cases hc : containsName "update_time" df = true
    · have he : insertUpdateTime (some s) df
          = .error "cannot insert update_time, already exists" := by
        simp [insertUpdateTime, hc]
      rw [he] at h
      injection h with h
      exact h.symm
    · have he : insertUpdateTime (some s) df
          = .ok (⟨"update_time", Dtype.obj, List.replicate (nRows df) (Cell.strv s)⟩ :: df) := by
        simp [insertUpdateTime, hc]
      rw [he] at h
      exact absurd h (by simp)

theorem idCellPipe_error {x : Cell} {e : String} (h : idCellPipe x = .error e) :
    ∃ s, e = "cannot convert to Int64: " ++ s := by
  cases x with
  | null => exact absurd h (by simp [idCellPipe, fillnaZero, astypeInt64Cell, Except.map])
  | intv n => exact absurd h (by simp [idCellPipe, fillnaZero, astypeInt64Cell, Except.map])
  | floatv n => exact absurd h (by simp [idCellPipe, fillnaZero, astypeInt64Cell, Except.map])
  | strv s =>
    cases hp : parseIntStr s with
    | some n =>
      exact absurd h (by simp [idCellPipe, fillnaZero, astypeInt64Cell, hp, Except.map])
    | none =>
      have he : idCellPipe (Cell.strv s) = .error ("cannot convert to Int64: " ++ s) := by
        simp [idCellPipe, fillnaZero, astypeInt64Cell, hp, Except.map]
      rw [he] at h
      injection h with h
      exact ⟨s, h.symm⟩

theorem idCol_error {c : Column} {e : String} (h : idCol c = .error e) :
    ∃ s, e = "cannot convert to Int64: " ++ s := by
  unfold idCol at h
  split at h
  · cases hm : mapE idCellPipe c.cells with
    | error e2 =>
      rw [hm] at h
      simp [Except.map] at h
      obtain ⟨x, _, hx⟩ := mapE_error hm
      rw [← h]
      exact idCellPipe_error hx
    | ok ys =>
      rw [hm] at h
      exact absurd h (by simp [Except.map])
  · exact absurd h (by simp)

theorem priorStepDf_error {df : DataFrame} {e : String} (h : priorStepDf df = .error e) :
    e = "KeyError: priorizacao_dispatching" := by
  unfold priorStepDf at h
  split at h
  · exact absurd h (by simp)
  · injection h with h
    exact h.symm

/-- C5 (amended): the source's local recovery covers only the date columns
(the try/except around lines 164-174; in this embedding that guarded step is
total, so date handling never aborts).  Identifier-column cast failures, the
duplicate `update_time` insert, and a missing `priorizacao_dispatching`
column are *not* recovered: they abort `_process_dataframe` and the
file-level result becomes a failure — the error of a failed normalization is
always one of these three, never a date column. -/
theorem c5_error_sources (u : Option String) (c : Content) (e : String)
    (h : processDataframe u (readCsv c) = .error e) :
    (loadSmallCsv u c).sucess = false ∧ (loadSmallCsv u c).dataframe = none ∧
    (e = "cannot insert update_time, already exists" ∨
     e = "KeyError: priorizacao_dispatching" ∨
     ∃ s, e = "cannot convert to Int64: " ++ s) := by
  have hload : loadSmallCsv u c = ⟨false, "❌ Erro: " ++ e, none, 0⟩ := by
    unfold loadSmallCsv
    rw [h]
  refine ⟨by rw [hload], by rw [hload], ?_⟩
  rw [processDataframe_eq] at h
  cases hI : insertUpdateTime u (renameDf (readCsv c)) with
  | error e1 =>
    rw [hI] at h
    simp [Except.bind] at h
    rw [← h]
    exact Or.inl (insertUpdateTime_error hI)
  | ok df2 =>
    rw [hI] at h
    simp only [Except.bind] at h
    cases hID : idStepsDf (dateStepsDf df2) with
    | error e2 =>
      rw [hID] at h
      simp [Except.bind] at h
      obtain ⟨col, _, hcol⟩ := mapE_error hID
      rw [← h]
      exact Or.inr (Or.inr (idCol_error hcol))
    | ok df4 =>
      rw [hID] at h
      simp only [Except.bind] at h
      cases hP : priorStepDf df4 with
      | error e3 =>
        rw [hP] at h
        simp [Except.bind] at h
        rw [← h]
        exact Or.inr (Or.inl (priorStepDf_error hP))
      | ok df5 =>
        rw [hP] at h
        exact absurd h (by simp [Except.bind])

/-- C5 witness: at the uncastable-id input, the failed normalization's error
is the id-cast error and the file result is the captured failure. -/
theorem c5_error_sources_witness :
    (loadSmallCsv none ⟨["Id 4Field", "Priorização Dispatching"], [["abc", "x"]]⟩).sucess
        = false ∧
    (loadSmallCsv none ⟨["Id 4Field", "Priorização Dispatching"], [["abc", "x"]]⟩).dataframe
        = none ∧
    ("cannot convert to Int64: abc" = "cannot insert update_time, already exists" ∨
     "cannot convert to Int64: abc" = "KeyError: priorizacao_dispatching" ∨
     ∃ s, ("cannot convert to Int64: abc" : String) = "cannot convert to Int64: " ++ s) :=
  c5_error_sources none ⟨["Id 4Field", "Priorização Dispatching"], [["abc", "x"]]⟩
    "cannot convert to Int64: abc" rfl

/-! ## Sentinel-free output (C4) -/

theorem renderIntChars_head (n : Int) :
    ∃ c r, renderIntChars n = c :: r ∧ (c.isDigit = true ∨ c = '-') := by
  rw [renderIntChars]
  split
  · exact ⟨'-', renderNatChars n.natAbs, rfl, Or.inr rfl⟩
  · cases hl : renderNatChars n.toNat with
    | nil => exact absurd hl (renderNatChars_ne_nil n.toNat)
    | cons c r =>
      refine ⟨c, r, rfl, Or.inl ?_⟩
      apply renderNatChars_digits n.toNat
      rw [hl]
      exact List.mem_cons_self _ _

theorem str_head_ne {s w : String} {c : Char} {r : List Char}
    (hs : s.data = c :: r) (hc : c.isDigit = true ∨ c = '-')
    (hw : w.data = [] ∨ ∃ c2 r2, w.data = c2 :: r2 ∧ c2.isDigit = false ∧ c2 ≠ '-') :
    s ≠ w := by
  intro he
  subst he
  rcases hw with hw | ⟨c2, r2, hw, hd2, hdash⟩
  · rw [hs] at hw
    exact List.noConfusion hw
  · rw [hs] at hw
    injection hw with h1 _
    subst h1
    rcases hc with hc | hc
    · rw [hc] at hd2
      exact absurd hd2 (by decide)
    · exact hdash hc

theorem renderIntStr_ne_word (n : Int) {w : String}
    (hw : w.data = [] ∨ ∃ c2 r2, w.data = c2 :: r2 ∧ c2.isDigit = false ∧ c2 ≠ '-') :
    renderIntStr n ≠ w := by
  obtain ⟨c, r, hcr, hc⟩ := renderIntChars_head n
  exact str_head_ne (s := renderIntStr n) (by rw [renderIntStr, hcr]) hc hw

theorem renderFloatStr_ne_word (n : Int) {w : String}
    (hw : w.data = [] ∨ ∃ c2 r2, w.data = c2 :: r2 ∧ c2.isDigit = false ∧ c2 ≠ '-') :
    renderIntStr n ++ ".0" ≠ w := by
  obtain ⟨c, r, hcr, hc⟩ := renderIntChars_head n
  refine str_head_ne (s := renderIntStr n ++ ".0") (c := c) (r := r ++ ('.' :: ['0'])) ?_ hc hw
  show (renderIntStr n).data ++ ('.' :: ['0']) = c :: (r ++ ('.' :: ['0']))
  rw [show (renderIntStr n).data = renderIntChars n from rfl, hcr]
  rfl

/-- The four sentinel words each have a non-digit, non-dash head (or are
empty). -/
theorem sentinel_heads (w : String) (hw : w ∈ SENTINELS ∨ w = "None") :
    w.data = [] ∨ ∃ c2 r2, w.data = c2 :: r2 ∧ c2.isDigit = false ∧ c2 ≠ '-' := by
  have hw2 : w = "nan" ∨ w = "None" ∨ w = "" ∨ w = "NaT" := by
    rcases hw with hw | hw
    · simpa [SENTINELS] using hw
    · exact Or.inr (Or.inl hw)
  rcases hw2 with h | h | h | h
  · subst h; exact Or.inr ⟨'n', ['a', 'n'], rfl, by decide, by decide⟩
  · subst h; exact Or.inr ⟨'N', ['o', 'n', 'e'], rfl, by decide, by decide⟩
  · subst h; exact Or.inl rfl
  · subst h; exact Or.inr ⟨'N', ['a', 'T'], rfl, by decide, by decide⟩

theorem sentCell_eq_strv (s : String) :
    sentCell (Cell.strv s) = if s ∈ SENTINELS then Cell.null else Cell.strv s := rfl

theorem textCell_eq_strv (s : String) :
    textCell (Cell.strv s) = if s = "None" then Cell.null else Cell.strv s := rfl

theorem sentCell_clean (x : Cell) :
    sentCell x ≠ Cell.strv "nan" ∧ sentCell x ≠ Cell.strv "None" ∧
    sentCell x ≠ Cell.strv "" ∧ sentCell x ≠ Cell.strv "NaT" := by
  cases x with
  | null => exact ⟨by simp [sentCell], by simp [sentCell], by simp [sentCell], by simp [sentCell]⟩
  | intv n => exact ⟨by simp [sentCell], by simp [sentCell], by simp [sentCell], by simp [sentCell]⟩
  | floatv n =>
    exact ⟨by simp [sentCell], by simp [sentCell], by simp [sentCell], by simp [sentCell]⟩
  | strv s =>
    rw [sentCell_eq_strv]
    by_cases hm : s ∈ SENTINELS
    · rw [if_pos hm]
      exact ⟨by simp, by simp, by simp, by simp⟩
    · rw [if_neg hm]
      refine ⟨?_, ?_, ?_, ?_⟩ <;>
        · intro he
          injection he with he
          exact hm (by rw [he]; decide)

theorem textCell_sentCell_clean (x : Cell) :
    textCell (sentCell x) ≠ Cell.strv "nan" ∧ textCell (sentCell x) ≠ Cell.strv "None" ∧
    textCell (sentCell x) ≠ Cell.strv "" ∧ textCell (sentCell x) ≠ Cell.strv "NaT" := by
  cases x with
  | null => exact ⟨by simp [sentCell, textCell], by simp [sentCell, textCell],
      by simp [sentCell, textCell], by simp [sentCell, textCell]⟩
  | intv n =>
    have hr : textCell (sentCell (Cell.intv n)) = Cell.strv (renderIntStr n) := rfl
    rw [hr]
    refine ⟨?_, ?_, ?_, ?_⟩ <;>
      · intro he
        injection he with he
        exact absurd he (renderIntStr_ne_word n (sentinel_heads _ (by decide)))
  | floatv n =>
    have hr : textCell (sentCell (Cell.floatv n)) = Cell.strv (renderIntStr n ++ ".0") := rfl
    rw [hr]
    refine ⟨?_, ?_, ?_, ?_⟩ <;>
      · intro he
        injection he with he
        exact absurd he (renderFloatStr_ne_word n (sentinel_heads _ (by decide)))
  | strv s =>
    by_cases hm : s ∈ SENTINELS
    · have hr : textCell (sentCell (Cell.strv s)) = Cell.null := by
        rw [sentCell_eq_strv, if_pos hm]
        rfl
      rw [hr]
      exact ⟨by simp, by simp, by simp, by simp⟩
    · have hnone : ¬(s = "None") := fun he => hm (by rw [he]; decide)
      have hr : textCell (sentCell (Cell.strv s)) = Cell.strv s := by
        rw [sentCell_eq_strv, if_neg hm, textCell_eq_strv, if_neg hnone]
      rw [hr]
      refine ⟨?_, ?_, ?_, ?_⟩ <;>
        · intro he
          injection he with he
          exact hm (by rw [he]; decide)

theorem processDataframe_ok_shape {u : Option String} {df out : DataFrame}
    (h : processDataframe u df = .ok out) :
    ∃ mid, out = textDf (sentinelDf mid) := by
  rw [processDataframe_eq] at h
  obtain ⟨df2, _, h⟩ := except_bind_ok h
  obtain ⟨df4, _, h⟩ := except_bind_ok h
  obtain ⟨df5, _, h⟩ := except_bind_ok h
  injection h with h
  exact ⟨df5, h.symm⟩

/-- C4: every cell of a successfully normalized table differs from the four
literal sentinel tokens: the line-187 replace nulls every sentinel string in
every column, and the final text coercion turns a null into `"None"` only to
replace it back to null in the same expression, so the literal word is never
reintroduced. -/
theorem c4_no_sentinel_tokens (u : Option String) (df out : DataFrame)
    (h : processDataframe u df = Except.ok out) :
    ∀ col ∈ out, ∀ cell ∈ col.cells,
      cell ≠ Cell.strv "nan" ∧ cell ≠ Cell.strv "None" ∧
      cell ≠ Cell.strv "" ∧ cell ≠ Cell.strv "NaT" := by
  obtain ⟨mid, hout⟩ := processDataframe_ok_shape h
  subst hout
  intro col hcol cell hcell
  obtain ⟨c5, hc5, hcol⟩ := List.mem_map.mp hcol
  obtain ⟨c0, _, hc5e⟩ := List.mem_map.mp hc5
  subst hcol
  unfold textCol at hcell
  split at hcell
  · simp only [List.mem_map] at hcell
    obtain ⟨y, hy, hcell⟩ := hcell
    rw [← hc5e] at hy
    simp only [sentCol, List.mem_map] at hy
    obtain ⟨x, _, hx⟩ := hy
    rw [← hcell, ← hx]
    exact textCell_sentCell_clean x
  · rw [← hc5e] at hcell
    simp only [sentCol, List.mem_map] at hcell
    obtain ⟨x, _, hx⟩ := hcell
    rw [← hx]
    exact sentCell_clean x

/-- C4 witness: a table whose free-text column holds the literal "nan"
normalizes to a table with no sentinel tokens (the cell becomes null). -/
theorem c4_no_sentinel_tokens_witness :
    processDataframe none [⟨"priorizacao_dispatching", Dtype.obj, [Cell.strv "nan"]⟩] =
      Except.ok [⟨"priorizacao_dispatching", Dtype.obj, [Cell.null]⟩] ∧
    (Cell.null ≠ Cell.strv "nan" ∧ Cell.null ≠ Cell.strv "None" ∧
      Cell.null ≠ Cell.strv "" ∧ Cell.null ≠ Cell.strv "NaT") :=
  ⟨rfl,
    c4_no_sentinel_tokens none [⟨"priorizacao_dispatching", Dtype.obj, [Cell.strv "nan"]⟩]
      [⟨"priorizacao_dispatching", Dtype.obj, [Cell.null]⟩] rfl
      ⟨"priorizacao_dispatching", Dtype.obj, [Cell.null]⟩ (by simp)
      Cell.null (by simp)⟩

/-! ## Chunking and row-count preservation (C8) -/

theorem chunkListAux_nil (fuel k : Nat) : chunkListAux fuel k ([] : List α) = [] := by
  cases fuel <;> rfl

theorem chunkListAux_flatten :
    ∀ (fuel k : Nat) (l : List α), l.length ≤ fuel →
      (chunkListAux fuel k l).flatten = l := by
  intro fuel
  induction fuel with
  | zero =>
    intro k l h
    have : l = [] := List.length_eq_zero.mp (by omega)
    subst this
    rfl
  | succ fuel ih =>
    intro k l h
    cases l with
    | nil => rfl
    | cons x xs =>
      have hxs : xs.length ≤ fuel := by
        simp at h
        omega
      show ((x :: xs.take (k - 1)) :: chunkListAux fuel k (xs.drop (k - 1))).flatten = x :: xs
      rw [List.flatten_cons]
      rw [ih k (xs.drop (k - 1)) (by rw [List.length_drop]; omega)]
      simp [List.cons_append, List.take_append_drop]

theorem chunkList_flatten (k : Nat) (l : List α) : (chunkList k l).flatten = l :=
  chunkListAux_flatten l.length k l (le_refl _)

theorem chunkList_ne_nil {k : Nat} {l : List α} (h : l ≠ []) : chunkList k l ≠ [] := by
  cases l with
  | nil => exact absurd rfl h
  | cons x xs => simp [chunkList, chunkListAux]

theorem chunkListAux_mem_ne_nil :
    ∀ (fuel k : Nat) (l : List α), ∀ ch ∈ chunkListAux fuel k l, ch ≠ [] := by
  intro fuel
  induction fuel with
  | zero =>
    intro k l ch hch
    exact absurd hch (by simp [chunkListAux])
  | succ fuel ih =>
    intro k l ch hch
    cases l with
    | nil => exact absurd hch (by simp [chunkListAux])
    | cons x xs =>
      rcases List.mem_cons.mp hch with h2 | h2
      · rw [h2]; simp
      · exact ih k (xs.drop (k - 1)) ch h2

theorem chunkList_mem_ne_nil {k : Nat} {l : List α} :
    ∀ ch ∈ chunkList k l, ch ≠ [] :=
  fun ch hch => chunkListAux_mem_ne_nil l.length k l ch hch

theorem chunkList_singleton {k : Nat} {l : List α} (hne : l ≠ []) (hle : l.length ≤ k) :
    chunkList k l = [l] := by
  cases l with
  | nil => exact absurd rfl hne
  | cons x xs =>
    show (x :: xs.take (k - 1)) :: chunkListAux xs.length k (xs.drop (k - 1)) = [x :: xs]
    have hlen : xs.length ≤ k - 1 := by
      simp at hle
      omega
    rw [List.take_of_length_le hlen, List.drop_eq_nil_of_le hlen, chunkListAux_nil]

def AllLen (m : Nat) (df : DataFrame) : Prop := ∀ col ∈ df, col.cells.length = m

theorem nRows_of_AllLen {df : DataFrame} {m : Nat} (hne : df ≠ []) (hl : AllLen m df) :
    nRows df = m := by
  cases df with
  | nil => exact absurd rfl hne
  | cons c cs => exact hl c (List.mem_cons_self _ _)

theorem renameDf_AllLen {df : DataFrame} {m : Nat} (hl : AllLen m df) :
    AllLen m (renameDf df) := by
  intro col hcol
  obtain ⟨c0, hc0, hc⟩ := List.mem_map.mp hcol
  rw [← hc]
  exact hl c0 hc0

theorem insertUpdateTime_ok_len {u : Option String} {df out : DataFrame} {m : Nat}
    (hne : df ≠ []) (hl : AllLen m df) (h : insertUpdateTime u df = .ok out) :
    AllLen m out ∧ out ≠ [] := by
  cases u with
  | none =>
    have : df = out := by injection h
    rw [← this]
    exact ⟨hl, hne⟩
  | some s =>
    by_cases hc : containsName "update_time" df = true
    · exact absurd h (by simp [insertUpdateTime, hc])
    · have he : insertUpdateTime (some s) df
          = .ok (⟨"update_time", Dtype.obj, List.replicate (nRows df) (Cell.strv s)⟩ :: df) := by
        simp [insertUpdateTime, hc]
      rw [he] at h
      injection h with h
      rw [← h]
      refine ⟨?_, by simp⟩
      intro col hcol
      rcases List.mem_cons.mp hcol with h2 | h2
      · rw [h2]
        simp [nRows_of_AllLen hne hl]
      · exact hl col h2

theorem parseCellsWith_length (g : Option Fmt) (cells : List Cell) :
    (parseCellsWith g cells).length = cells.length := by
  unfold parseCellsWith
  cases g <;> simp

theorem toDatetimeCoerce_length (cells : List Cell) :
    (toDatetimeCoerce cells).length = cells.length := by
  unfold toDatetimeCoerce
  cases hf : firstStrCell cells with
  | none => simp
  | some s0 => exact parseCellsWith_length _ _

theorem dateCol_shape (c : Column) :
    (dateCol c).name = c.name ∧ (dateCol c).cells.length = c.cells.length := by
  unfold dateCol
  split
  · exact ⟨rfl, by simp [toDatetimeCoerce_length]⟩
  · exact ⟨rfl, rfl⟩

theorem idCol_ok_shape {c c' : Column} (h : idCol c = .ok c') :
    c'.name = c.name ∧ c'.cells.length = c.cells.length := by
  unfold idCol at h
  split at h
  · cases hm : mapE idCellPipe c.cells with
    | error e =>
      rw [hm] at h
      exact absurd h (by simp [Except.map])
    | ok cs =>
      rw [hm] at h
      simp [Except.map] at h
      rw [← h]
      exact ⟨rfl, mapE_ok_length hm⟩
  · injection h with h
    rw [← h]
    exact ⟨rfl, rfl⟩

theorem priorCol_shape (c : Column) :
    (priorCol c).name = c.name ∧ (priorCol c).cells.length = c.cells.length := by
  unfold priorCol
  split
  · exact ⟨rfl, by simp⟩
  · exact ⟨rfl, rfl⟩

theorem sentCol_shape (c : Column) :
    (sentCol c).name = c.name ∧ (sentCol c).cells.length = c.cells.length := by
  exact ⟨rfl, by simp [sentCol]⟩

theorem textCol_shape (c : Column) :
    (textCol c).name = c.name ∧ (textCol c).cells.length = c.cells.length := by
  unfold textCol
  split
  · exact ⟨rfl, by simp⟩
  · exact ⟨rfl, rfl⟩

theorem priorStepDf_ok {df out : DataFrame} (h : priorStepDf df = .ok out) :
    out = df.map priorCol ∧ containsName PRIOR_COL df = true := by
  unfold priorStepDf at h
  split at h
  · injection h with h
    exact ⟨h.symm, by assumption⟩
  · exact absurd h (by simp)

theorem map_AllLen {df : DataFrame} {m : Nat} {f : Column → Column}
    (hf : ∀ c, (f c).cells.length = c.cells.length) (hl : AllLen m df) :
    AllLen m (df.map f) := by
  intro col hcol
  obtain ⟨c0, hc0, hc⟩ := List.mem_map.mp hcol
  rw [← hc, hf c0]
  exact hl c0 hc0

theorem processDataframe_ok_len {u : Option String} {df out : DataFrame} {m : Nat}
    (h : processDataframe u df = .ok out) (hne : df ≠ []) (hl : AllLen m df) :
    AllLen m out ∧ out ≠ [] := by
  rw [processDataframe_eq] at h
  obtain ⟨df2, h2, h⟩ := except_bind_ok h
  obtain ⟨df4, h4, h⟩ := except_bind_ok h
  obtain ⟨df5, h5, h⟩ := except_bind_ok h
  injection h with h
  have hrne : renameDf df ≠ [] := by
    cases df with
    | nil => exact absurd rfl hne
    | cons c cs => simp [renameDf]
  obtain ⟨hl2, hne2⟩ := insertUpdateTime_ok_len hrne (renameDf_AllLen hl) h2
  have hl3 : AllLen m (dateStepsDf df2) := map_AllLen (fun c => (dateCol_shape c).2) hl2
  have hne3 : dateStepsDf df2 ≠ [] := by
    cases df2 with
    | nil => exact absurd rfl hne2
    | cons c cs => simp [dateStepsDf]
  have hl4 : AllLen m df4 := by
    intro col hcol
    obtain ⟨c0, hc0, hc⟩ := forall₂_mem_right (mapE_forall₂ h4) col hcol
    rw [(idCol_ok_shape hc).2]
    exact hl3 c0 hc0
  have hne4 : df4 ≠ [] := by
    have := mapE_ok_length h4
    intro he
    rw [he] at this
    simp at this
    exact hne3 (List.length_eq_zero.mp this.symm)
  obtain ⟨h5e, _⟩ := priorStepDf_ok h5
  have hl5 : AllLen m df5 := h5e ▸ map_AllLen (fun c => (priorCol_shape c).2) hl4
  have hne5 : df5 ≠ [] := by
    rw [h5e]
    cases df4 with
    | nil => exact absurd rfl hne4
    | cons c cs => simp
  have hl6 : AllLen m (textDf (sentinelDf df5)) :=
    map_AllLen (fun c => (textCol_shape c).2)
      (map_AllLen (fun c => (sentCol_shape c).2) hl5)
  have hne6 : textDf (sentinelDf df5) ≠ [] := by
    cases df5 with
    | nil => exact absurd rfl hne5
    | cons c cs => simp [textDf, sentinelDf]
  rw [← h]
  exact ⟨hl6, hne6⟩

theorem processDataframe_ok_ne_nil {u : Option String} {df out : DataFrame}
    (h : processDataframe u df = .ok out) : df ≠ [] := by
  intro he
  subst he
  cases u with
  | none => exact absurd h (by simp [processDataframe_eq, insertUpdateTime, Except.bind,
      renameDf, dateStepsDf, idStepsDf, mapE, priorStepDf, containsName, PRIOR_COL])
  | some s =>
    have hstep : processDataframe (some s) ([] : DataFrame)
        = Except.error "KeyError: priorizacao_dispatching" := rfl
    rw [hstep] at h
    exact absurd h (by simp)

/-! ## Dtype-cache coherence and concatenation (C8) -/

theorem inferColumn_name (nm : String) (raws : List String) :
    (inferColumn nm raws).name = nm := by
  unfold inferColumn
  split
  · rfl
  · split
    · split <;> rfl
    · rfl

theorem parse_infer_col (nm : String) (raws : List String) :
    mapE (parseCellWith (inferColumn nm raws).dtype) raws
      = .ok (inferColumn nm raws).cells := by
  by_cases he : raws.isEmpty
  · have hraws : raws = [] := List.isEmpty_iff.mp he
    subst hraws
    rfl
  · by_cases hall : raws.all (fun s => isIntTok s || isNaTok s)
    · by_cases hany : raws.any (fun s => isNaTok s)
      · have hcol : inferColumn nm raws
            = ⟨nm, .float64, raws.map (fun s =>
                if isNaTok s then .null else
                match parseIntStr s with
                | some n => .floatv n
                | none => .floatv 0)⟩ := by
          unfold inferColumn
          rw [if_neg (by simp [he]), if_pos hall, if_pos hany]
        rw [hcol]
        apply mapE_eq_map_of_ok
        intro s hs
        by_cases hna : isNaTok s = true
        · simp [parseCellWith, hna]
        · have hint : isIntTok s = true := by
            have h2 := List.all_eq_true.mp hall s hs
            have hor : isIntTok s = true ∨ isNaTok s = true := by simpa using h2
            rcases hor with h3 | h3
            · exact h3
            · exact absurd h3 hna
          obtain ⟨n, hn⟩ := Option.isSome_iff_exists.mp hint
          simp [parseCellWith, hna, hn]
      · have hcol : inferColumn nm raws
            = ⟨nm, .int64, raws.map (fun s =>
                match parseIntStr s with
                | some n => .intv n
                | none => .intv 0)⟩ := by
          unfold inferColumn
          rw [if_neg (by simp [he]), if_pos hall, if_neg (by simp [hany])]
        rw [hcol]
        apply mapE_eq_map_of_ok
        intro s hs
        have hna : isNaTok s = false := by
          by_contra hc
          simp only [Bool.not_eq_false] at hc
          exact hany (List.any_eq_true.mpr ⟨s, hs, hc⟩)
        have hint : isIntTok s = true := by
          have h2 := List.all_eq_true.mp hall s hs
          have hor : isIntTok s = true ∨ isNaTok s = true := by simpa using h2
          rcases hor with h3 | h3
          · exact h3
          · rw [h3] at hna
            exact absurd hna (by simp)
        obtain ⟨n, hn⟩ := Option.isSome_iff_exists.mp hint
        simp [parseCellWith, hna, hn]
    · have hcol : inferColumn nm raws
          = ⟨nm, .obj, raws.map (fun s => if isNaTok s then .null else .strv s)⟩ := by
        unfold inferColumn
        rw [if_neg (by simp [he]), if_neg hall]
      rw [hcol]
      apply mapE_eq_map_of_ok
      intro s _
      rfl

theorem except_map_ok {α β : Type} {f : α → β} {a : α} :
    Except.map f (Except.ok (ε := String) a) = Except.ok (f a) := rfl

theorem column_eta {c : Column} {nm : String} (h : c.name = nm) :
    (⟨nm, c.dtype, c.cells⟩ : Column) = c := by
  rw [← h]

theorem inferDtypes_getD (c : Content) {i : Nat} (h : i < c.header.length) :
    (inferDtypes c).getD i Dtype.obj
      = (inferColumn (c.header.getD i "") (colRaws c.rows i)).dtype := by
  unfold inferDtypes readCsv
  rw [List.map_map, List.getD_eq_getElem?_getD, List.getElem?_map, List.getElem?_range h]
  rfl

theorem readCsvWith_infer (c : Content) :
    readCsvWith (inferDtypes c) c.header c.rows = .ok (readCsv c) := by
  unfold readCsvWith
  have hfin : readCsv c = (List.range c.header.length).map
      (fun i => inferColumn (c.header.getD i "") (colRaws c.rows i)) := rfl
  rw [hfin]
  apply mapE_eq_map_of_ok
  intro i hi
  have hlt : i < c.header.length := List.mem_range.mp hi
  rw [inferDtypes_getD c hlt, parse_infer_col]
  simp only [except_map_ok]
  rw [column_eta (inferColumn_name (c.header.getD i "") (colRaws c.rows i))]

theorem readCsvWith_ok_len {dts : List Dtype} {header : List String}
    {rows : List (List String)} {df : DataFrame}
    (h : readCsvWith dts header rows = .ok df) :
    df.length = header.length ∧ AllLen rows.length df := by
  constructor
  · rw [mapE_ok_length h, List.length_range]
  · intro col hcol
    obtain ⟨i, _, hi⟩ := forall₂_mem_right (mapE_forall₂ h) col hcol
    cases hm : mapE (fun s => parseCellWith (dts.getD i .obj) s) (colRaws rows i) with
    | error e =>
      rw [hm] at hi
      exact absurd hi (by simp [Except.map])
    | ok cs =>
      rw [hm] at hi
      simp [Except.map] at hi
      rw [← hi]
      show cs.length = rows.length
      rw [mapE_ok_length hm]
      simp [colRaws]

theorem processChunk_ok_shape {u : Option String} {cache : List Dtype}
    {header : List String} {ch : List (List String)} {d : DataFrame}
    (h : processChunk u cache header ch = .ok d) :
    d ≠ [] ∧ nRows d = ch.length ∧ 0 < header.length := by
  obtain ⟨df0, hr, hp⟩ := except_bind_ok h
  obtain ⟨hlen, hall⟩ := readCsvWith_ok_len hr
  have hne0 : df0 ≠ [] := processDataframe_ok_ne_nil hp
  obtain ⟨hl, hne⟩ := processDataframe_ok_len hp hne0 hall
  refine ⟨hne, nRows_of_AllLen hne hl, ?_⟩
  rw [← hlen]
  exact List.length_pos.mpr hne0

theorem forall₂_map_eq {f : α → γ} {g : β → γ} :
    ∀ {l : List α} {l' : List β},
      List.Forall₂ (fun a b => g b = f a) l l' → l'.map g = l.map f := by
  intro l l' h
  induction h with
  | nil => rfl
  | cons h1 _ ih => simp [ih, h1]

theorem concat2_nRows {a b : DataFrame} (ha : a ≠ []) (hb : b ≠ []) :
    nRows (concat2 a b) = nRows a + nRows b := by
  cases a with
  | nil => exact absurd rfl ha
  | cons x as =>
    cases b with
    | nil => exact absurd rfl hb
    | cons y bs => simp [concat2, nRows]

theorem concat2_ne_nil {a b : DataFrame} (ha : a ≠ []) (hb : b ≠ []) :
    concat2 a b ≠ [] := by
  cases a with
  | nil => exact absurd rfl ha
  | cons x as =>
    cases b with
    | nil => exact absurd rfl hb
    | cons y bs => simp [concat2]

theorem foldl_concat2_nRows :
    ∀ (ds : List DataFrame) (d : DataFrame), d ≠ [] → (∀ x ∈ ds, x ≠ []) →
      nRows (ds.foldl concat2 d) = nRows d + (ds.map nRows).sum := by
  intro ds
  induction ds with
  | nil => intro d _ _; simp
  | cons e es ih =>
    intro d hd hmem
    have he : e ≠ [] := hmem e (List.mem_cons_self _ _)
    rw [List.foldl_cons,
      ih (concat2 d e) (concat2_ne_nil hd he) (fun x hx => hmem x (List.mem_cons_of_mem _ hx)),
      concat2_nRows hd he]
    simp
    omega

theorem concatDfs_nRows {dfs : List DataFrame} (hne : dfs ≠ [])
    (hmem : ∀ d ∈ dfs, d ≠ []) :
    nRows (concatDfs dfs) = (dfs.map nRows).sum := by
  cases dfs with
  | nil => exact absurd rfl hne
  | cons d ds =>
    show nRows (ds.foldl concat2 d) = (List.map nRows (d :: ds)).sum
    rw [foldl_concat2_nRows ds d (hmem d (List.mem_cons_self _ _))
      (fun x hx => hmem x (List.mem_cons_of_mem _ hx))]
    simp

/-- C8 (amended): whenever the chunked path produces a table, its row count
equals the sum of the per-chunk row counts (the flattened chunks are exactly
the original rows, in order) and `chunks_processed` equals the number of
chunks; and in the single-regime case (at most 1000 data rows, so the
sampled dtype cache covers the whole file and there is one chunk) the
chunked-path table is exactly the small-path table.  Unconditional equality
between the two paths is false: zero-row content (the counterexample), a
dtype cache sampled from the first 1000 rows that mismatches later rows, or
per-chunk datetime-format inference drifting between chunks all break it. -/
theorem c8_chunk_counts_and_small_regime (u : Option String) (c : Content) (df : DataFrame)
    (h : (loadLargeCsv u c).dataframe = some df) :
    (chunkList CHUNK_SIZE c.rows).flatten = c.rows ∧
    (loadLargeCsv u c).sucess = true ∧
    (loadLargeCsv u c).chunks_processed = (chunkList CHUNK_SIZE c.rows).length ∧
    nRows df = c.rows.length ∧
    (c.rows.length ≤ 1000 → loadSmallCsv u c
        = ⟨true, "✅ Arquivo processado com sucesso.", some df, 0⟩) := by
  by_cases hre : c.rows.isEmpty
  · rw [loadLargeCsv, if_pos hre] at h
    exact absurd h (by simp)
  · rw [loadLargeCsv, if_neg hre] at h
    cases hm : mapE (processChunk u (inferDtypes ⟨c.header, c.rows.take 1000⟩) c.header)
        (chunkList CHUNK_SIZE c.rows) with
    | error e =>
      rw [hm] at h
      exact absurd h (by simp)
    | ok dfs =>
      rw [hm] at h
      simp only [Option.some.injEq] at h
      have hrows_ne : c.rows ≠ [] := by
        intro he
        rw [he] at hre
        exact hre rfl
      have hL : loadLargeCsv u c
          = ⟨true, "✅ Processado com sucesso", some (concatDfs dfs), dfs.length⟩ := by
        rw [loadLargeCsv, if_neg hre, hm]
      have hforall := mapE_forall₂ hm
      refine ⟨chunkList_flatten CHUNK_SIZE c.rows, by rw [hL], ?_, ?_, ?_⟩
      · rw [hL]
        exact mapE_ok_length hm
      · rw [← h]
        have hdfs_ne : dfs ≠ [] := by
          intro he
          have := mapE_ok_length hm
          rw [he] at this
          exact chunkList_ne_nil (k := CHUNK_SIZE) hrows_ne
            (List.length_eq_zero.mp this.symm)
        have hmem : ∀ d ∈ dfs, d ≠ [] := by
          intro d hd
          obtain ⟨ch, _, hch⟩ := forall₂_mem_right hforall d hd
          exact (processChunk_ok_shape hch).1
        rw [concatDfs_nRows hdfs_ne hmem]
        have hmapeq : dfs.map nRows = (chunkList CHUNK_SIZE c.rows).map List.length :=
          forall₂_map_eq (hforall.imp (fun a b hab => (processChunk_ok_shape hab).2.1))
        rw [hmapeq, ← List.length_flatten, chunkList_flatten]
      · intro hle
        have hchunks : chunkList CHUNK_SIZE c.rows = [c.rows] :=
          chunkList_singleton hrows_ne (le_trans hle (by norm_num [CHUNK_SIZE]))
        rw [hchunks] at hm
        have htake : c.rows.take 1000 = c.rows := List.take_of_length_le hle
        rw [htake] at hm
        have hc : (⟨c.header, c.rows⟩ : Content) = c := rfl
        rw [hc] at hm
        cases hr : processChunk u (inferDtypes c) c.header c.rows with
        | error e =>
          rw [mapE_cons, hr] at hm
          exact absurd hm (by simp [Except.bind])
        | ok d =>
          rw [mapE_cons, hr] at hm
          have hdfs : dfs = [d] := by
            simp [Except.bind, mapE] at hm
            exact hm.symm
          obtain ⟨a, ha, hp⟩ := except_bind_ok hr
          have ha2 : a = readCsv c := by
            rw [readCsvWith_infer c] at ha
            injection ha with ha
            exact ha.symm
          rw [ha2] at hp
          have hsmall : loadSmallCsv u c
              = ⟨true, "✅ Arquivo processado com sucesso.", some d, 0⟩ := by
            unfold loadSmallCsv
            rw [hp]
          rw [hsmall, ← h, hdfs]
          rfl

/-- C8 witness: two one-column rows (at most 1000, single chunk) — the
chunked path succeeds with one chunk, its row count is the total row count,
and its table equals the small-path table. -/
theorem c8_chunk_counts_and_small_regime_witness :
    (chunkList CHUNK_SIZE ([["a"], ["b"]] : List (List String))).flatten = [["a"], ["b"]] ∧
    (loadLargeCsv none ⟨["Priorização Dispatching"], [["a"], ["b"]]⟩).sucess = true ∧
    (loadLargeCsv none ⟨["Priorização Dispatching"], [["a"], ["b"]]⟩).chunks_processed
      = (chunkList CHUNK_SIZE ([["a"], ["b"]] : List (List String))).length ∧
    nRows [⟨"priorizacao_dispatching", Dtype.obj, [Cell.strv "a", Cell.strv "b"]⟩]
      = ([["a"], ["b"]] : List (List String)).length ∧
    (([["a"], ["b"]] : List (List String)).length ≤ 1000 →
      loadSmallCsv none ⟨["Priorização Dispatching"], [["a"], ["b"]]⟩
        = ⟨true, "✅ Arquivo processado com sucesso.",
            some [⟨"priorizacao_dispatching", Dtype.obj, [Cell.strv "a", Cell.strv "b"]⟩], 0⟩) :=
  c8_chunk_counts_and_small_regime none ⟨["Priorização Dispatching"], [["a"], ["b"]]⟩
    [⟨"priorizacao_dispatching", Dtype.obj, [Cell.strv "a", Cell.strv "b"]⟩] rfl

/-! ## Idempotence machinery (C2)

With no `update_time`, `_process_dataframe` acts column-wise:
`coreCol` is the rename + date + id part (the only fallible one), and
`finishCol` is the free-text stringification + sentinel replace + final text
coercion part.  Idempotence reduces to: on any `coreCol` output, `finishCol`
produces a column that is a fixed point of the whole per-column pipeline. -/

def coreCol (c : Column) : Except String Column := idCol (dateCol (renameCol c))

def finishCol (c : Column) : Column := textCol (sentCol (priorCol c))

theorem lookupAssoc_mem {k v : String} :
    ∀ {l : List (String × String)}, lookupAssoc k l = some v → (k, v) ∈ l := by
  intro l
  induction l with
  | nil => intro h; exact absurd h (by simp [lookupAssoc])
  | cons p ps ih =>
    intro h
    unfold lookupAssoc at h
    split at h
    · injection h with h
      have hp : p = (k, v) := by
        cases p
        simp_all
      rw [← hp]
      exact List.mem_cons_self _ _
    · exact List.mem_cons_of_mem _ (ih h)

theorem renameColName_not_key (n : String) :
    lookupAssoc (renameColName n) COLUMN_MAPPING = none := by
  unfold renameColName
  cases hl : lookupAssoc n COLUMN_MAPPING with
  | none =>
    simpa using hl
  | some v =>
    have hmem := lookupAssoc_mem hl
    have hall : COLUMN_MAPPING.all
        (fun p => (lookupAssoc p.2 COLUMN_MAPPING).isNone) = true := by decide
    have hv := List.all_eq_true.mp hall _ hmem
    simp at hv ⊢
    exact hv

theorem renameCol_fix {c : Column} (h : lookupAssoc c.name COLUMN_MAPPING = none) :
    renameCol c = c := by
  unfold renameCol renameColName
  rw [h]
  rfl

theorem dateCol_skip {c : Column} (h : c.name ∉ DATE_COLUMNS) : dateCol c = c := by
  unfold dateCol
  rw [if_neg h]

theorem priorCol_skip {c : Column} (h : c.name ≠ PRIOR_COL) : priorCol c = c := by
  unfold priorCol
  rw [if_neg h]

theorem priorCol_pos {c : Column} (h : c.name = PRIOR_COL) :
    priorCol c = ⟨c.name, Dtype.obj, c.cells.map astypeStrReadCell⟩ := by
  unfold priorCol
  rw [if_pos h]

theorem idCol_skip {c : Column} (h : c.name ∉ ID_COLUMNS) : idCol c = .ok c := by
  unfold idCol
  rw [if_neg h]

theorem sentCell_idem (x : Cell) : sentCell (sentCell x) = sentCell x := by
  cases x with
  | strv s =>
    rw [sentCell_eq_strv]
    by_cases hm : s ∈ SENTINELS
    · rw [if_pos hm]
      rfl
    · rw [if_neg hm, sentCell_eq_strv, if_neg hm]
  | null => rfl
  | intv n => rfl
  | floatv n => rfl

theorem map_eq_self {f : α → α} : ∀ {l : List α}, (∀ x ∈ l, f x = x) → l.map f = l := by
  intro l
  induction l with
  | nil => intro _; rfl
  | cons x xs ih =>
    intro h
    rw [List.map_cons, h x (List.mem_cons_self _ _),
      ih (fun y hy => h y (List.mem_cons_of_mem _ hy))]

/-! Cell-shape invariants of the pipeline's outputs. -/

def ObjCellOk (x : Cell) : Prop :=
  x = Cell.null ∨ ∃ s, x = Cell.strv s ∧ s ∉ SENTINELS

def IsoCell (x : Cell) : Prop :=
  x = Cell.null ∨ ∃ t, t.valid ∧ x = Cell.strv (isoStringDT t)

def IdCellOk (x : Cell) : Prop :=
  x = Cell.null ∨ ∃ n : Int, x = Cell.strv (renderIntStr n) ∧ renderIntStr n ≠ "0"

theorem pad4Chars_head (n : Nat) :
    ∃ c r, pad4Chars n = c :: r ∧ c.isDigit = true := by
  unfold pad4Chars
  split
  · exact ⟨'0', _, rfl, by decide⟩
  · split
    · exact ⟨'0', _, rfl, by decide⟩
    · split
      · exact ⟨'0', _, rfl, by decide⟩
      · cases hl : renderNatChars n with
        | nil => exact absurd hl (renderNatChars_ne_nil n)
        | cons c r =>
          refine ⟨c, r, rfl, ?_⟩
          apply renderNatChars_digits n
          rw [hl]
          exact List.mem_cons_self _ _

theorem isoStringDT_head (t : DT) :
    ∃ c r, (isoStringDT t).data = c :: r ∧ c.isDigit = true := by
  obtain ⟨c, r, hcr, hc⟩ := pad4Chars_head t.y
  refine ⟨c, r ++ (('-' :: (pad2Chars t.mo ++ ('-' :: pad2Chars t.d))) ++ (' ' :: isoTimeChars t)),
    ?_, hc⟩
  show isoDateChars t ++ (' ' :: isoTimeChars t) = _
  rw [isoDateChars, hcr]
  simp

theorem isoStringDT_ne_word (t : DT) {w : String}
    (hw : w.data = [] ∨ ∃ c2 r2, w.data = c2 :: r2 ∧ c2.isDigit = false ∧ c2 ≠ '-') :
    isoStringDT t ≠ w := by
  obtain ⟨c, r, hcr, hc⟩ := isoStringDT_head t
  exact str_head_ne hcr (Or.inl hc) hw

theorem isoStringDT_not_sent (t : DT) : isoStringDT t ∉ SENTINELS :=
  fun hm => isoStringDT_ne_word t (sentinel_heads _ (Or.inl hm)) rfl

theorem renderIntStr_not_sent (n : Int) : renderIntStr n ∉ SENTINELS :=
  fun hm => renderIntStr_ne_word n (sentinel_heads _ (Or.inl hm)) rfl

theorem renderFloatStr_not_sent (n : Int) : (renderIntStr n ++ ".0") ∉ SENTINELS :=
  fun hm => renderFloatStr_ne_word n (sentinel_heads _ (Or.inl hm)) rfl

theorem IsoCell_obj {x : Cell} (h : IsoCell x) : ObjCellOk x := by
  rcases h with h | ⟨t, _, h⟩
  · exact Or.inl h
  · exact Or.inr ⟨isoStringDT t, h, isoStringDT_not_sent t⟩

theorem IdCellOk_obj {x : Cell} (h : IdCellOk x) : ObjCellOk x := by
  rcases h with h | ⟨n, h, _⟩
  · exact Or.inl h
  · exact Or.inr ⟨renderIntStr n, h, renderIntStr_not_sent n⟩

theorem parseDateIso_bounds {l : List Char} {y m d : Nat}
    (h : parseDateIso l = some (y, m, d)) : 1 ≤ m ∧ m ≤ 12 ∧ 1 ≤ d ∧ d ≤ 31 := by
  unfold parseDateIso at h
  split at h
  · split at h
    · split at h
      · simp at h
        omega
      · exact absurd h (by simp)
    · exact absurd h (by simp)
  · exact absurd h (by simp)

theorem parseDateSlash_bounds {b : Bool} {l : List Char} {y m d : Nat}
    (h : parseDateSlash b l = some (y, m, d)) : 1 ≤ m ∧ m ≤ 12 ∧ 1 ≤ d ∧ d ≤ 31 := by
  unfold parseDateSlash at h
  split at h
  · split at h
    · split at h
      · split at h
        · simp at h
          omega
        · exact absurd h (by simp)
      · split at h
        · simp at h
          omega
        · exact absurd h (by simp)
    · exact absurd h (by simp)
  · exact absurd h (by simp)

theorem parseTimeChars_bounds {l : List Char} {hh mi ss : Nat}
    (h : parseTimeChars l = some (hh, mi, ss)) : hh ≤ 23 ∧ mi ≤ 59 ∧ ss ≤ 59 := by
  unfold parseTimeChars at h
  split at h
  · split at h
    · split at h
      · simp at h
        omega
      · exact absurd h (by simp)
    · exact absurd h (by simp)
  · exact absurd h (by simp)

theorem parseDTwith_valid {dp : List Char → Option (Nat × Nat × Nat)}
    (hdp : ∀ l y m d, dp l = some (y, m, d) → 1 ≤ m ∧ m ≤ 12 ∧ 1 ≤ d ∧ d ≤ 31)
    {s : String} {t : DT} (h : parseDTwith dp s = some t) : t.valid := by
  unfold parseDTwith at h
  split at h
  · rename_i dpart heq
    cases hd : dp dpart with
    | none =>
      rw [hd] at h
      exact absurd h (by simp)
    | some v =>
      rw [hd] at h
      simp only [Option.map_some'] at h
      injection h with h
      obtain ⟨y2, m2, d2⟩ := v
      obtain ⟨h1, h2, h3, h4⟩ := hdp _ _ _ _ hd
      rw [← h]
      unfold DT.valid
      refine ⟨h1, h2, h3, h4, by simp, by simp, by simp⟩
  · rename_i dpart tpart heq
    cases hd : dp dpart with
    | none =>
      rw [hd] at h
      exact absurd h (by simp)
    | some v =>
      cases ht : parseTimeChars tpart with
      | none =>
        rw [hd, ht] at h
        exact absurd h (by simp)
      | some w =>
        rw [hd, ht] at h
        have h2 : some (⟨v.1, v.2.1, v.2.2, w.1, w.2.1, w.2.2⟩ : DT) = some t := h
        injection h2 with h2
        obtain ⟨y2, m2, d2⟩ := v
        obtain ⟨hh2, mi2, ss2⟩ := w
        obtain ⟨h1, h2b, h3, h4⟩ := hdp _ _ _ _ hd
        obtain ⟨h5, h6, h7⟩ := parseTimeChars_bounds ht
        rw [← h2]
        unfold DT.valid
        exact ⟨h1, h2b, h3, h4, h5, h6, h7⟩
  · exact absurd h (by simp)

theorem parseFmt_valid {f : Fmt} {s : String} {t : DT} (h : parseFmt f s = some t) :
    t.valid := by
  cases f with
  | iso => exact parseDTwith_valid (fun l y m d hl => parseDateIso_bounds hl) h
  | mdy => exact parseDTwith_valid (fun l y m d hl => parseDateSlash_bounds hl) h
  | dmy => exact parseDTwith_valid (fun l y m d hl => parseDateSlash_bounds hl) h

theorem parseFlex_valid {s : String} {t : DT} (h : parseFlex s = some t) : t.valid := by
  unfold parseFlex at h
  split at h
  · injection h with h
    rename_i t2 heq
    rw [← h]
    exact parseFmt_valid heq
  · split at h
    · injection h with h
      rename_i t2 heq
      rw [← h]
      exact parseFmt_valid heq
    · exact parseFmt_valid h

theorem firstStrCell_none :
    ∀ {cells : List Cell}, firstStrCell cells = none →
      ∀ x ∈ cells, ∀ s, x ≠ Cell.strv s := by
  intro cells
  induction cells with
  | nil => intro _ x hx; exact absurd hx (by simp)
  | cons c rest ih =>
    intro h x hx s
    cases c with
    | strv s2 => exact absurd h (by simp [firstStrCell])
    | null =>
      rcases List.mem_cons.mp hx with h2 | h2
      · rw [h2]; simp
      · exact ih h x h2 s
    | intv n =>
      rcases List.mem_cons.mp hx with h2 | h2
      · rw [h2]; simp
      · exact ih h x h2 s
    | floatv n =>
      rcases List.mem_cons.mp hx with h2 | h2
      · rw [h2]; simp
      · exact ih h x h2 s

theorem firstStrCell_mem :
    ∀ {cells : List Cell} {s : String}, firstStrCell cells = some s →
      Cell.strv s ∈ cells := by
  intro cells
  induction cells with
  | nil => intro s h; exact absurd h (by simp [firstStrCell])
  | cons c rest ih =>
    intro s h
    cases c with
    | strv s2 =>
      have h2 : some s2 = some s := h
      injection h2 with h2
      rw [← h2]
      exact List.mem_cons_self _ _
    | null => exact List.mem_cons_of_mem _ (ih h)
    | intv n => exact List.mem_cons_of_mem _ (ih h)
    | floatv n => exact List.mem_cons_of_mem _ (ih h)

theorem toDatetimeCoerce_nostr {cells : List Cell} (hf : firstStrCell cells = none) :
    toDatetimeCoerce cells = cells.map (fun _ => none) := by
  unfold toDatetimeCoerce
  rw [hf]

theorem toDatetimeCoerce_first {cells : List Cell} {s0 : String}
    (hf : firstStrCell cells = some s0) :
    toDatetimeCoerce cells = parseCellsWith (guessFmt s0) cells := by
  unfold toDatetimeCoerce
  rw [hf]

theorem parseCellsWith_some (f : Fmt) (cells : List Cell) :
    parseCellsWith (some f) cells =
      cells.map (fun c => match c with | .strv s => parseFmt f s | _ => none) := rfl

theorem parseCellsWith_flex (cells : List Cell) :
    parseCellsWith none cells =
      cells.map (fun c => match c with | .strv s => parseFlex s | _ => none) := rfl

theorem toDatetimeCoerce_valid {cells : List Cell} :
    ∀ o ∈ toDatetimeCoerce cells, ∀ t, o = some t → t.valid := by
  intro o ho t hot
  subst hot
  cases hf : firstStrCell cells with
  | none =>
    rw [toDatetimeCoerce_nostr hf] at ho
    obtain ⟨x, _, hx⟩ := List.mem_map.mp ho
    exact absurd hx (by simp)
  | some s0 =>
    rw [toDatetimeCoerce_first hf] at ho
    cases hg : guessFmt s0 with
    | some f =>
      rw [hg, parseCellsWith_some] at ho
      obtain ⟨x, _, hx⟩ := List.mem_map.mp ho
      cases x with
      | strv s => exact parseFmt_valid hx
      | null => exact absurd hx (by simp)
      | intv n => exact absurd hx (by simp)
      | floatv n => exact absurd hx (by simp)
    | none =>
      rw [hg, parseCellsWith_flex] at ho
      obtain ⟨x, _, hx⟩ := List.mem_map.mp ho
      cases x with
      | strv s => exact parseFlex_valid hx
      | null => exact absurd hx (by simp)
      | intv n => exact absurd hx (by simp)
      | floatv n => exact absurd hx (by simp)

theorem dateCells_fix {cells : List Cell} (hiso : ∀ x ∈ cells, IsoCell x) :
    (toDatetimeCoerce cells).map dtRender = cells := by
  cases hf : firstStrCell cells with
  | none =>
    rw [toDatetimeCoerce_nostr hf, List.map_map]
    apply map_eq_self
    intro x hx
    rcases hiso x hx with h | ⟨t, _, h⟩
    · rw [h]; rfl
    · exact absurd h (by have := firstStrCell_none hf x hx (isoStringDT t); simpa using this)
  | some s0 =>
    have hmem := firstStrCell_mem hf
    rcases hiso _ hmem with h | ⟨t0, hval, h⟩
    · exact absurd h (by simp)
    · injection h with h
      subst h
      rw [toDatetimeCoerce_first hf, guessFmt_iso t0 hval, parseCellsWith_some]
      rw [List.map_map]
      apply map_eq_self
      intro x hx
      rcases hiso x hx with h2 | ⟨t, htv, h2⟩
      · rw [h2]; rfl
      · rw [h2]
        show dtRender (parseFmt Fmt.iso (isoStringDT t)) = Cell.strv (isoStringDT t)
        rw [parseFmt_iso_roundtrip t htv]
        rfl

theorem dateCol_dtype {c : Column} (h : c.name ∈ DATE_COLUMNS) :
    (dateCol c).dtype = Dtype.obj := by
  unfold dateCol
  rw [if_pos h]

theorem dateCol_cells_iso {c : Column} (h : c.name ∈ DATE_COLUMNS) :
    ∀ x ∈ (dateCol c).cells, IsoCell x := by
  unfold dateCol
  rw [if_pos h]
  intro x hx
  simp only [List.mem_map] at hx
  obtain ⟨o, ho, hx⟩ := hx
  cases o with
  | none => exact Or.inl (by rw [← hx]; rfl)
  | some t =>
    refine Or.inr ⟨t, toDatetimeCoerce_valid (some t) ho t rfl, ?_⟩
    rw [← hx]
    rfl

theorem dateCol_fix {c : Column} (hobj : c.dtype = Dtype.obj)
    (hiso : ∀ x ∈ c.cells, IsoCell x) : dateCol c = c := by
  unfold dateCol
  split
  · rw [dateCells_fix hiso, ← hobj]
  · rfl

/-! Fixed points of the sentinel/text coercions (lines 187-191). -/

theorem sentCell_obj {x : Cell} (h : ObjCellOk x) : sentCell x = x := by
  rcases h with h | ⟨s, h, hs⟩
  · rw [h]; rfl
  · rw [h, sentCell_eq_strv, if_neg hs]

theorem textCell_obj {x : Cell} (h : ObjCellOk x) : textCell x = x := by
  rcases h with h | ⟨s, h, hs⟩
  · rw [h]; rfl
  · rw [h, textCell_eq_strv, if_neg (fun he => hs (by rw [he]; decide))]

theorem textCell_shape2 (x : Cell) :
    textCell x = Cell.null ∨ ∃ s, textCell x = Cell.strv s := by
  cases x with
  | null => exact Or.inl rfl
  | intv n => exact Or.inr ⟨_, rfl⟩
  | floatv n => exact Or.inr ⟨_, rfl⟩
  | strv s =>
    rw [textCell_eq_strv]
    by_cases h : s = "None"
    · rw [if_pos h]; exact Or.inl rfl
    · rw [if_neg h]; exact Or.inr ⟨_, rfl⟩

theorem tsCell_obj (x : Cell) : ObjCellOk (textCell (sentCell x)) := by
  obtain ⟨h1, h2, h3, h4⟩ := textCell_sentCell_clean x
  rcases textCell_shape2 (sentCell x) with h | ⟨s, h⟩
  · exact Or.inl h
  · refine Or.inr ⟨s, h, ?_⟩
    intro hs
    have hcase : s = "nan" ∨ s = "None" ∨ s = "" ∨ s = "NaT" := by
      simpa [SENTINELS] using hs
    rcases hcase with h5 | h5 | h5 | h5 <;> subst h5
    · exact h1 h
    · exact h2 h
    · exact h3 h
    · exact h4 h

theorem tsCell_fix {x : Cell} (h : ObjCellOk x) : textCell (sentCell x) = x := by
  rw [sentCell_obj h, textCell_obj h]

theorem prCell_fix {x : Cell} (h : ObjCellOk x) :
    textCell (sentCell (astypeStrReadCell x)) = x := by
  rcases h with h | ⟨s, h, hs⟩
  · rw [h]; rfl
  · rw [h]
    have ha : astypeStrReadCell (Cell.strv s) = Cell.strv s := rfl
    rw [ha, sentCell_eq_strv, if_neg hs, textCell_eq_strv,
      if_neg (fun he => hs (by rw [he]; decide))]

/-! Fixed points of the id cast pipeline (line 181). -/

theorem idCellPipe_ok_shape {x y : Cell} (h : idCellPipe x = .ok y) : IdCellOk y := by
  unfold idCellPipe at h
  cases ha : astypeInt64Cell (fillnaZero x) with
  | error e =>
    rw [ha] at h
    exact absurd h (by simp [Except.map])
  | ok n =>
    rw [ha] at h
    have h2 : Except.ok (ε := String)
        (if renderIntStr n = "0" then Cell.null else Cell.strv (renderIntStr n)) =
        Except.ok y := h
    injection h2 with h2
    by_cases hz : renderIntStr n = "0"
    · rw [if_pos hz] at h2
      exact Or.inl h2.symm
    · rw [if_neg hz] at h2
      exact Or.inr ⟨n, h2.symm, hz⟩

theorem idCellPipe_fix {x : Cell} (h : IdCellOk x) : idCellPipe x = .ok x := by
  rcases h with h | ⟨n, h, hz⟩
  · rw [h]; rfl
  · rw [h]
    unfold idCellPipe
    have hf : fillnaZero (Cell.strv (renderIntStr n)) = Cell.strv (renderIntStr n) := rfl
    rw [hf]
    have ha : astypeInt64Cell (Cell.strv (renderIntStr n)) = .ok n := by
      show (match parseIntStr (renderIntStr n) with
        | some m => Except.ok m
        | none => Except.error ("cannot convert to Int64: " ++ renderIntStr n)) = Except.ok n
      rw [parseIntStr_render]
    rw [ha]
    have hmap : Except.map (fun m : Int =>
        let s := renderIntStr m
        if s = "0" then Cell.null else Cell.strv s) (Except.ok (ε := String) n) =
        Except.ok (if renderIntStr n = "0" then Cell.null else Cell.strv (renderIntStr n)) := rfl
    rw [hmap, if_neg hz]

theorem mapE_fix {f : α → Except String α} {l : List α}
    (h : ∀ x ∈ l, f x = .ok x) : mapE f l = .ok l := by
  have h2 := mapE_eq_map_of_ok (g := id) (fun x hx => h x hx)
  rw [List.map_id] at h2
  exact h2

/-! Name tracking through the pipeline. -/

theorem coreCol_ok_name {c0 c4 : Column} (h : coreCol c0 = .ok c4) :
    c4.name = renameColName c0.name := by
  unfold coreCol at h
  rw [(idCol_ok_shape h).1, (dateCol_shape (renameCol c0)).1]
  rfl

theorem finishCol_name (c : Column) : (finishCol c).name = c.name := by
  unfold finishCol
  rw [(textCol_shape _).1, (sentCol_shape _).1, (priorCol_shape _).1]

theorem containsName_map_finishCol (n : String) (df : DataFrame) :
    containsName n (df.map finishCol) = containsName n df := by
  unfold containsName
  rw [List.any_map]
  congr 1
  funext c
  rw [Function.comp_apply, finishCol_name]

/-! Shape equations for `finishCol` in each column regime. -/

theorem finishCol_obj {c : Column} (hn : c.name ≠ PRIOR_COL) (hd : c.dtype = Dtype.obj) :
    finishCol c = { c with cells := c.cells.map (fun x => textCell (sentCell x)) } := by
  have h1 : finishCol c = { c with cells := (c.cells.map sentCell).map textCell } := by
    unfold finishCol
    rw [priorCol_skip hn]
    unfold textCol
    rw [if_pos (show (sentCol c).dtype = Dtype.obj from hd)]
    rfl
  rw [h1]
  simp only [List.map_map]
  rfl

theorem finishCol_nonobj {c : Column} (hn : c.name ≠ PRIOR_COL) (hd : ¬c.dtype = Dtype.obj) :
    finishCol c = { c with cells := c.cells.map sentCell } := by
  unfold finishCol
  rw [priorCol_skip hn]
  unfold textCol
  rw [if_neg (show ¬(sentCol c).dtype = Dtype.obj from hd)]
  rfl

theorem finishCol_prior {c : Column} (hn : c.name = PRIOR_COL) :
    finishCol c = ⟨c.name, Dtype.obj,
      c.cells.map (fun x => textCell (sentCell (astypeStrReadCell x)))⟩ := by
  have h1 : finishCol c = ⟨c.name, Dtype.obj,
      ((c.cells.map astypeStrReadCell).map sentCell).map textCell⟩ := by
    unfold finishCol
    rw [priorCol_pos hn]
    rfl
  rw [h1]
  simp only [List.map_map]
  rfl

theorem finishCol_fix_obj {c : Column} (hn : c.name ≠ PRIOR_COL) (hd : c.dtype = Dtype.obj)
    (hcells : ∀ x ∈ c.cells, ObjCellOk x) : finishCol c = c := by
  rw [finishCol_obj hn hd]
  have hmap : c.cells.map (fun x => textCell (sentCell x)) = c.cells :=
    map_eq_self (fun x hx => tsCell_fix (hcells x hx))
  rw [hmap]

/-- Master fixed-point lemma for the second run: a column produced by the
rename/date/id core is left intact by a further rename/date/id pass once the
sentinel/text finish has run, and the finish itself is idempotent on it. -/
theorem finishCol_core_fix {c0 c4 : Column} (h : coreCol c0 = .ok c4) :
    coreCol (finishCol c4) = .ok (finishCol c4) ∧
      finishCol (finishCol c4) = finishCol c4 := by
  have hname : c4.name = renameColName c0.name := coreCol_ok_name h
  have hren : ∀ c : Column, c.name = renameColName c0.name → renameCol c = c := by
    intro c hc
    exact renameCol_fix (by rw [hc]; exact renameColName_not_key _)
  have hfname : (finishCol c4).name = renameColName c0.name := by
    rw [finishCol_name, hname]
  by_cases hdate : renameColName c0.name ∈ DATE_COLUMNS
  · have hnotid : renameColName c0.name ∉ ID_COLUMNS := by
      have hdis : ∀ n ∈ DATE_COLUMNS, n ∉ ID_COLUMNS := by decide
      exact hdis _ hdate
    have hnotpr : renameColName c0.name ≠ PRIOR_COL := by
      have hdis : ∀ n ∈ DATE_COLUMNS, n ≠ PRIOR_COL := by decide
      exact hdis _ hdate
    have hnm2 : (dateCol (renameCol c0)).name = renameColName c0.name := by
      rw [(dateCol_shape _).1]
      rfl
    have hc4 : c4 = dateCol (renameCol c0) := by
      unfold coreCol at h
      rw [idCol_skip (by rw [hnm2]; exact hnotid)] at h
      injection h with h
      exact h.symm
    have hrn : (renameCol c0).name ∈ DATE_COLUMNS := hdate
    have hdtype : c4.dtype = Dtype.obj := by
      rw [hc4]
      exact dateCol_dtype hrn
    have hiso : ∀ x ∈ c4.cells, IsoCell x := by
      rw [hc4]
      exact dateCol_cells_iso hrn
    have hobj : ∀ x ∈ c4.cells, ObjCellOk x := fun x hx => IsoCell_obj (hiso x hx)
    have hfin : finishCol c4 = c4 :=
      finishCol_fix_obj (by rw [hname]; exact hnotpr) hdtype hobj
    rw [hfin]
    refine ⟨?_, hfin⟩
    unfold coreCol
    rw [hren c4 hname, dateCol_fix hdtype hiso]
    exact idCol_skip (by rw [hname]; exact hnotid)
  · by_cases hid : renameColName c0.name ∈ ID_COLUMNS
    · have hnotpr : renameColName c0.name ≠ PRIOR_COL := by
        have hdis : ∀ n ∈ ID_COLUMNS, n ≠ PRIOR_COL := by decide
        exact hdis _ hid
      have hc4e : ∃ cs, mapE idCellPipe (renameCol c0).cells = .ok cs ∧
          c4 = { renameCol c0 with dtype := Dtype.obj, cells := cs } := by
        unfold coreCol at h
        rw [dateCol_skip (show (renameCol c0).name ∉ DATE_COLUMNS from hdate)] at h
        unfold idCol at h
        rw [if_pos (show (renameCol c0).name ∈ ID_COLUMNS from hid)] at h
        cases hm : mapE idCellPipe (renameCol c0).cells with
        | error e =>
          rw [hm] at h
          exact absurd h (by simp [Except.map])
        | ok cs =>
          rw [hm] at h
          have h2 : Except.ok (ε := String)
              ({ renameCol c0 with dtype := Dtype.obj, cells := cs }) = Except.ok c4 := h
          injection h2 with h2
          exact ⟨cs, rfl, h2.symm⟩
      obtain ⟨cs, hm, hcc⟩ := hc4e
      have hcells : ∀ y ∈ c4.cells, IdCellOk y := by
        rw [hcc]
        intro y hy
        obtain ⟨x, _, hxy⟩ := forall₂_mem_right (mapE_forall₂ hm) y hy
        exact idCellPipe_ok_shape hxy
      have hdtype : c4.dtype = Dtype.obj := by rw [hcc]
      have hobj : ∀ x ∈ c4.cells, ObjCellOk x := fun x hx => IdCellOk_obj (hcells x hx)
      have hfin : finishCol c4 = c4 :=
        finishCol_fix_obj (by rw [hname]; exact hnotpr) hdtype hobj
      rw [hfin]
      refine ⟨?_, hfin⟩
      unfold coreCol
      rw [hren c4 hname, dateCol_skip (by rw [hname]; exact hdate)]
      unfold idCol
      rw [if_pos (show c4.name ∈ ID_COLUMNS by rw [hname]; exact hid)]
      rw [mapE_fix (fun x hx => idCellPipe_fix (hcells x hx)), except_map_ok]
      congr 1
      rw [← hdtype]
    · constructor
      · unfold coreCol
        rw [hren _ hfname, dateCol_skip (by rw [hfname]; exact hdate)]
        exact idCol_skip (by rw [hfname]; exact hid)
      · by_cases hpr : renameColName c0.name = PRIOR_COL
        · have hp1 : c4.name = PRIOR_COL := by rw [hname]; exact hpr
          rw [finishCol_prior hp1]
          have hp2 : (⟨c4.name, Dtype.obj, c4.cells.map
              (fun x => textCell (sentCell (astypeStrReadCell x)))⟩ : Column).name =
              PRIOR_COL := hp1
          rw [finishCol_prior hp2]
          show (⟨c4.name, Dtype.obj,
              (c4.cells.map (fun x => textCell (sentCell (astypeStrReadCell x)))).map
                (fun x => textCell (sentCell (astypeStrReadCell x)))⟩ : Column) =
            ⟨c4.name, Dtype.obj,
              c4.cells.map (fun x => textCell (sentCell (astypeStrReadCell x)))⟩
          have hcmap : (c4.cells.map (fun x => textCell (sentCell (astypeStrReadCell x)))).map
              (fun x => textCell (sentCell (astypeStrReadCell x))) =
              c4.cells.map (fun x => textCell (sentCell (astypeStrReadCell x))) := by
            rw [List.map_map]
            exact List.map_congr_left (fun x _ => prCell_fix (tsCell_obj _))
          rw [hcmap]
        · by_cases hdt : c4.dtype = Dtype.obj
          · rw [finishCol_obj (by rw [hname]; exact hpr) hdt]
            have hn2 : ({ c4 with cells := c4.cells.map (fun x => textCell (sentCell x)) } :
                Column).name ≠ PRIOR_COL := by
              show c4.name ≠ PRIOR_COL
              rw [hname]; exact hpr
            have hd2 : ({ c4 with cells := c4.cells.map (fun x => textCell (sentCell x)) } :
                Column).dtype = Dtype.obj := hdt
            rw [finishCol_obj hn2 hd2]
            show (⟨c4.name, c4.dtype, (c4.cells.map (fun x => textCell (sentCell x))).map
                (fun x => textCell (sentCell x))⟩ : Column) =
              ⟨c4.name, c4.dtype, c4.cells.map (fun x => textCell (sentCell x))⟩
            have hcmap : (c4.cells.map (fun x => textCell (sentCell x))).map
                (fun x => textCell (sentCell x)) =
                c4.cells.map (fun x => textCell (sentCell x)) := by
              rw [List.map_map]
              exact List.map_congr_left (fun x _ => tsCell_fix (tsCell_obj _))
            rw [hcmap]
          · rw [finishCol_nonobj (by rw [hname]; exact hpr) hdt]
            have hn2 : ({ c4 with cells := c4.cells.map sentCell } : Column).name ≠
                PRIOR_COL := by
              show c4.name ≠ PRIOR_COL
              rw [hname]; exact hpr
            have hd2 : ¬({ c4 with cells := c4.cells.map sentCell } : Column).dtype =
                Dtype.obj := hdt
            rw [finishCol_nonobj hn2 hd2]
            show ({ c4 with cells := (c4.cells.map sentCell).map sentCell } : Column) =
              { c4 with cells := c4.cells.map sentCell }
            have hcmap : (c4.cells.map sentCell).map sentCell = c4.cells.map sentCell := by
              rw [List.map_map]
              exact List.map_congr_left (fun x _ => sentCell_idem x)
            rw [hcmap]

/-- With no `update_time` to insert, `_process_dataframe` is the per-column
core (rename, date, id) followed by the `priorizacao_dispatching` presence
check and the per-column finish (prior cast, sentinel replace, text coerce). -/
theorem processDataframe_none_eq (df : DataFrame) :
    processDataframe none df = (mapE coreCol df).bind (fun d4 =>
      if containsName PRIOR_COL d4 then Except.ok (d4.map finishCol)
      else Except.error "KeyError: priorizacao_dispatching") := by
  have h1 : processDataframe none df =
      (idStepsDf (dateStepsDf (renameDf df))).bind (fun df4 =>
        (priorStepDf df4).bind (fun df5 => Except.ok (textDf (sentinelDf df5)))) := rfl
  rw [h1]
  have h2 : idStepsDf (dateStepsDf (renameDf df)) = mapE coreCol df := by
    unfold idStepsDf dateStepsDf renameDf
    rw [mapE_map, mapE_map]
    rfl
  rw [h2]
  cases hm : mapE coreCol df with
  | error e => rfl
  | ok d4 =>
    show (priorStepDf d4).bind (fun df5 => Except.ok (textDf (sentinelDf df5))) =
      (if containsName PRIOR_COL d4 then Except.ok (d4.map finishCol)
       else Except.error "KeyError: priorizacao_dispatching")
    unfold priorStepDf
    by_cases hp : containsName PRIOR_COL d4
    · rw [if_pos hp, if_pos hp]
      show Except.ok (textDf (sentinelDf (d4.map priorCol))) = Except.ok (d4.map finishCol)
      unfold textDf sentinelDf
      rw [List.map_map, List.map_map]
      rfl
    · rw [if_neg hp, if_neg hp]
      rfl

/-- C2 (corrected): `_process_dataframe` is *not* idempotent as claimed — with
an `update_time` set, the second run raises on the duplicate
`df.insert(0, "update_time", ...)` (counterexample `c2_idempotence_cex`).  The
amended guarantee: when no `update_time` column has to be inserted and the
first normalization run of a table with distinct column labels succeeds,
running `_process_dataframe` again on its own output succeeds and returns the
output unchanged — no column is renamed twice (the mapping's targets are not
themselves mapping keys), already-ISO dates round-trip through the re-parse,
already-cast ids re-cast to themselves, and the sentinel/text replacements are
idempotent. -/
theorem c2_idempotent_without_update_time (df out : DataFrame)
    ( _hnodup : (df.map (fun c => c.name)).Nodup)
    (h : processDataframe none df = .ok out) :
    processDataframe none out = .ok out := by
  rw [processDataframe_none_eq] at h
  cases hm : mapE coreCol df with
  | error e =>
    rw [hm] at h
    exact absurd h (by simp [Except.bind])
  | ok d4 =>
    rw [hm] at h
    have h2 : (if containsName PRIOR_COL d4 then Except.ok (d4.map finishCol)
        else Except.error "KeyError: priorizacao_dispatching") = Except.ok out := h
    by_cases hp : containsName PRIOR_COL d4
    · rw [if_pos hp] at h2
      injection h2 with h2
      subst h2
      rw [processDataframe_none_eq]
      have hfix : ∀ c4 ∈ d4, coreCol (finishCol c4) = .ok (finishCol c4) ∧
          finishCol (finishCol c4) = finishCol c4 := by
        intro c4 hc4
        obtain ⟨c0, _, hc⟩ := forall₂_mem_right (mapE_forall₂ hm) c4 hc4
        exact finishCol_core_fix hc
      have hmap2 : mapE coreCol (d4.map finishCol) = .ok (d4.map finishCol) := by
        rw [mapE_map]
        exact mapE_eq_map_of_ok (g := finishCol) (fun x hx => (hfix x hx).1)
      rw [hmap2]
      show (if containsName PRIOR_COL (d4.map finishCol) then
          Except.ok ((d4.map finishCol).map finishCol)
        else Except.error "KeyError: priorizacao_dispatching") =
        Except.ok (d4.map finishCol)
      rw [containsName_map_finishCol, if_pos hp]
      have hcmap : (d4.map finishCol).map finishCol = d4.map finishCol := by
        rw [List.map_map]
        exact List.map_congr_left (fun x hx => (hfix x hx).2)
      rw [hcmap]
    · rw [if_neg hp] at h2
      exact absurd h2 (by simp)

/-- Concrete witness for `c2_idempotent_without_update_time`: a one-column
table holding the mandatory `priorizacao_dispatching` column normalizes to
itself, and re-running the normalization leaves it unchanged. -/
theorem c2_idempotent_without_update_time_witness :
    processDataframe none
      [⟨"priorizacao_dispatching", Dtype.obj, [Cell.strv "alpha", Cell.null]⟩] =
      Except.ok [⟨"priorizacao_dispatching", Dtype.obj, [Cell.strv "alpha", Cell.null]⟩] :=
  c2_idempotent_without_update_time
    [⟨"priorizacao_dispatching", Dtype.obj, [Cell.strv "alpha", Cell.null]⟩]
    [⟨"priorizacao_dispatching", Dtype.obj, [Cell.strv "alpha", Cell.null]⟩]
    (by decide) (by rfl)

end Backlog
